import Mathlib

/-!
# Verification of the Wrye Bash record-group hierarchy (`brec/record_groups.py`)

Shallow embedding of the container classes in `Mopy/bash/brec/record_groups.py`:
`MobBase`, `MobObjects`, `MobDials`, `MobCell`, `MobCells`, `MobICells`,
`MobWorld`, `MobWorlds`.  Byte streams are `List Nat` (one `Nat` per byte);
the fixed 20-byte group/record header of the external `mod_io` collaborator is
modelled as four-byte little-endian fields.  Serialization-time state (short
FormIDs, raw data buffers) and merge-time state (long FormIDs, editor ids) are
modelled in the namespaces `Ser` and `Mrg` respectively; the loaders that the
error-handling claims exercise live in namespace `Load`.
-/

set_option autoImplicit false

/-- `RecordHeader.rec_header_size` for TES4-family games: 20 bytes. -/
def hsize : Nat := 20

/-- Little-endian 4-byte encoding of a 32-bit field (modelled from the spec:
the header codec lives in the external `mod_io` collaborator; the spec fixes
only the header size and its four logical 32-bit fields). -/
def le4 (n : Nat) : List Nat := [n % 256, n / 256 % 256, n / 65536 % 256, n / 16777216 % 256]

/-- Little-endian 2-byte encoding of a signed short, used for the packed
spatial coordinates in exterior block/sub-block group labels. -/
def le2 (i : Int) : List Nat := [(i.emod 65536).toNat % 256, (i.emod 65536).toNat / 256]

/-- The 4 signature bytes `b'GRUP'`. -/
def grupSig : List Nat := [71, 82, 85, 80]

/-- `GrupHeader(...).pack_head()` / `TopGrupHeader(...).pack_head()` with a
numeric label: signature, size, label, group type, stamp. -/
def packGrupN (sz lbl gt st : Nat) : List Nat :=
  grupSig ++ le4 sz ++ le4 lbl ++ le4 gt ++ le4 st

/-- Group header with an explicit 4-byte label field (block/sub-block headers
take tuple labels in the source; see `labelBytes`). -/
def packGrupL (sz : Nat) (lbl : List Nat) (gt st : Nat) : List Nat :=
  grupSig ++ le4 sz ++ lbl ++ le4 gt ++ le4 st

/-- Concatenated dumps of a list of children. -/
def catMap {α : Type} (f : α → List Nat) : List α → List Nat
  | [] => []
  | a :: t => f a ++ catMap f t

/-- Sum of a size function over a list of children. -/
def sumBy {α : Type} (f : α → Nat) : List α → Nat
  | [] => 0
  | a :: t => f a + sumBy f t

@[simp] theorem length_le4 (n : Nat) : (le4 n).length = 4 := rfl

@[simp] theorem length_le2 (i : Int) : (le2 i).length = 2 := rfl

@[simp] theorem length_packGrupN (sz lbl gt st : Nat) : (packGrupN sz lbl gt st).length = hsize := rfl

theorem length_packGrupL (sz : Nat) (lbl : List Nat) (gt st : Nat) (h : lbl.length = 4) :
    (packGrupL sz lbl gt st).length = hsize := by
  simp [packGrupL, grupSig, hsize, h]

@[simp] theorem catMap_nil {α : Type} (f : α → List Nat) : catMap f [] = [] := rfl

@[simp] theorem catMap_cons {α : Type} (f : α → List Nat) (a : α) (t : List α) :
    catMap f (a :: t) = f a ++ catMap f t := rfl

@[simp] theorem sumBy_nil {α : Type} (f : α → Nat) : sumBy f [] = 0 := rfl

@[simp] theorem sumBy_cons {α : Type} (f : α → Nat) (a : α) (t : List α) :
    sumBy f (a :: t) = f a + sumBy f t := rfl

theorem length_catMap {α : Type} (f : α → List Nat) (g : α → Nat)
    (hfg : ∀ a, (f a).length = g a) : ∀ l : List α, (catMap f l).length = sumBy g l
  | [] => rfl
  | a :: t => by simp [hfg a, length_catMap f g hfg t]

namespace Ser

/-- Record collaborator at serialization time (modelled from the spec: record
payload encoding is delegated to the external record classes; a record dumps a
fixed 20-byte record header — signature, size, flags1, fid, flags2 — followed
by its payload, and `getSize` reports the payload length). FormIDs are in
short (numeric) form at dump time. -/
structure SRec where
  sig : Nat
  flags1 : Nat
  fid : Nat
  flags2 : Nat
  body : List Nat
  deriving DecidableEq

def SRec.getSize (r : SRec) : Nat := r.body.length

def SRec.dump (r : SRec) : List Nat :=
  le4 r.sig ++ le4 r.body.length ++ le4 r.flags1 ++ le4 r.fid ++ le4 r.flags2 ++ r.body

theorem SRec.length_srec_dump (r : SRec) : r.dump.length = hsize + r.getSize := by
  simp [SRec.dump, SRec.getSize, hsize]
  omega

/-- The CELL record fields that `MobCell.getBsb` inspects: the interior flag
(`cell.flags.isInterior`), the numeric FormID, and the optional grid position
(`posX`/`posY`, `None` when absent). -/
structure CellRec where
  r : SRec
  isInterior : Bool
  posX : Option Int
  posY : Option Int
  deriving DecidableEq

def CellRec.getSize (c : CellRec) : Nat := c.r.getSize

def CellRec.dump (c : CellRec) : List Nat := c.r.dump

def CellRec.fid (c : CellRec) : Nat := c.r.fid

/-- One component of a "bsb" bucket key: two small numbers for interior cells,
a pair of grid coordinates for exterior cells (`(blockY, blockX)` ordering, as
produced by `MobCell.getBsb`). -/
inductive BSide where
  | int : Nat → BSide
  | ext : Int → Int → BSide
  deriving DecidableEq

/-- Python `<=` on bucket-key components (Python 2 tuple/int comparison as the
source relies on: numbers order before tuples; tuples lexicographically). -/
def BSide.le : BSide → BSide → Bool
  | .int m, .int n => m ≤ n
  | .int _, .ext _ _ => true
  | .ext _ _, .int _ => false
  | .ext a b, .ext c d => a < c || (a = c && b ≤ d)

def BSide.lt (x y : BSide) : Bool := x.le y && !(y.le x)

theorem BSide.le_refl (x : BSide) : x.le x = true := by
  cases x <;> simp [BSide.le]

theorem BSide.le_total (x y : BSide) : x.le y = true ∨ y.le x = true := by
  cases x <;> cases y <;> simp [BSide.le] <;> omega

theorem BSide.le_trans {x y z : BSide} (h1 : x.le y = true) (h2 : y.le z = true) :
    x.le z = true := by
  cases x <;> cases y <;> cases z <;> simp_all [BSide.le] <;> omega

theorem BSide.le_antisymm {x y : BSide} (h1 : x.le y = true) (h2 : y.le x = true) : x = y := by
  cases x <;> cases y <;> simp_all [BSide.le] <;> omega

/-- A full bucket key `(block, subblock)`. -/
abbrev Bsb := BSide × BSide

/-- Python `<=` on bucket keys: lexicographic on the pair. -/
def bsbLe (p q : Bsb) : Bool := BSide.lt p.1 q.1 || (p.1 = q.1 && BSide.le p.2 q.2)

theorem bsbLe_refl (p : Bsb) : bsbLe p p = true := by
  simp [bsbLe, BSide.le_refl]

theorem bsbLe_total (p q : Bsb) : bsbLe p q = true ∨ bsbLe q p = true := by
  by_cases he : p.1 = q.1
  · rcases BSide.le_total p.2 q.2 with h2 | h2
    · exact Or.inl (by simp [bsbLe, he, h2])
    · exact Or.inr (by simp [bsbLe, he.symm, h2])
  · rcases BSide.le_total p.1 q.1 with h | h
    · have hn : (q.1).le p.1 = false := by
        cases hq : (q.1).le p.1
        · rfl
        · exact absurd (BSide.le_antisymm h hq) he
      exact Or.inl (by simp [bsbLe, BSide.lt, h, hn])
    · have hn : (p.1).le q.1 = false := by
        cases hq : (p.1).le q.1
        · rfl
        · exact absurd (BSide.le_antisymm hq h) he
      exact Or.inr (by simp [bsbLe, BSide.lt, h, hn])

theorem bsbLe_trans {p q r : Bsb} (h1 : bsbLe p q = true) (h2 : bsbLe q r = true) :
    bsbLe p r = true := by
  obtain ⟨p1, p2⟩ := p
  obtain ⟨q1, q2⟩ := q
  obtain ⟨r1, r2⟩ := r
  simp only [bsbLe, BSide.lt, Bool.or_eq_true, Bool.and_eq_true, Bool.not_eq_true',
    decide_eq_true_eq] at *
  rcases h1 with ⟨hpq, hnqp⟩ | ⟨hpq1, hpq2⟩ <;> rcases h2 with ⟨hqr, hnrq⟩ | ⟨hqr1, hqr2⟩
  · refine Or.inl ⟨BSide.le_trans hpq hqr, ?_⟩
    cases hrp : r1.le p1
    · rfl
    · exact absurd (BSide.le_trans hrp hpq) (by simp [hnrq])
  · subst hqr1; exact Or.inl ⟨hpq, hnqp⟩
  · subst hpq1; exact Or.inl ⟨hqr, hnrq⟩
  · exact Or.inr ⟨hpq1.trans hqr1, BSide.le_trans hpq2 hqr2⟩

theorem bsbLe_antisymm {p q : Bsb} (h1 : bsbLe p q = true) (h2 : bsbLe q p = true) : p = q := by
  obtain ⟨p1, p2⟩ := p
  obtain ⟨q1, q2⟩ := q
  simp only [bsbLe, BSide.lt, Bool.or_eq_true, Bool.and_eq_true, Bool.not_eq_true',
    decide_eq_true_eq] at *
  rcases h1 with ⟨hpq, hnqp⟩ | ⟨hpq1, hpq2⟩ <;> rcases h2 with ⟨hqp, hnpq⟩ | ⟨hqp1, hqp2⟩
  · simp [hqp] at hnqp
  · subst hqp1; simp [BSide.le_refl] at hnqp
  · subst hpq1; simp [BSide.le_refl] at hnpq
  · subst hpq1; simp [BSide.le_antisymm hpq2 hqp2]

/-- First component of a bucket key is monotone under `bsbLe`. -/
theorem bsbLe_fst {p q : Bsb} (h : bsbLe p q = true) :
    p.1 = q.1 ∨ (BSide.lt p.1 q.1 = true) := by
  simp only [bsbLe, Bool.or_eq_true, Bool.and_eq_true, decide_eq_true_eq] at h
  rcases h with h | ⟨h, _⟩
  · exact Or.inr h
  · exact Or.inl h

/-- 4-byte label field of a block/sub-block group header.  For interior cells
the label is a number; for exterior cells it is the packed `(y, x)` coordinate
pair (modelled from the spec: "packed spatial coordinate" — the codec itself
lives in the external `mod_io` collaborator). -/
def labelBytes : BSide → List Nat
  | .int n => le4 n
  | .ext a b => le2 a ++ le2 b

theorem length_labelBytes (s : BSide) : (labelBytes s).length = 4 := by
  cases s <;> simp [labelBytes]

/-- `MobCell`: a cell block — the CELL record plus its persistent / temporary /
distant reference lists and the optional LAND / PGRD singletons
(`record_groups.py` lines 557-569). -/
structure MobCell where
  stamp : Nat
  cell : CellRec
  persistent : List SRec
  temp : List SRec
  distant : List SRec
  land : Option SRec
  pgrd : Option SRec
  deriving DecidableEq

def optSize : Option SRec → Nat
  | none => 0
  | some r => hsize + r.getSize

def optDump : Option SRec → List Nat
  | none => []
  | some r => r.dump

theorem length_optDump (o : Option SRec) : (optDump o).length = optSize o := by
  cases o <;> simp [optDump, optSize, SRec.length_srec_dump]

/-- `MobCell.getPersistentSize` (lines 628-633). -/
def MobCell.getPersistentSize (c : MobCell) : Nat :=
  let size := sumBy (fun x => hsize + x.getSize) c.persistent
  size + (if size ≠ 0 then hsize else 0)

/-- `MobCell.getTempSize` (lines 635-642): temporary references plus the PGRD
and LAND singletons, plus the sub-group header if anything is present. -/
def MobCell.getTempSize (c : MobCell) : Nat :=
  let size := sumBy (fun x => hsize + x.getSize) c.temp + optSize c.pgrd + optSize c.land
  size + (if size ≠ 0 then hsize else 0)

/-- `MobCell.getDistantSize` (lines 644-649). -/
def MobCell.getDistantSize (c : MobCell) : Nat :=
  let size := sumBy (fun x => hsize + x.getSize) c.distant
  size + (if size ≠ 0 then hsize else 0)

/-- `MobCell.getChildrenSize` (lines 621-626). -/
def MobCell.getChildrenSize (c : MobCell) : Nat :=
  let size := c.getPersistentSize + c.getTempSize + c.getDistantSize
  size + (if size ≠ 0 then hsize else 0)

/-- `MobCell.getSize` (lines 616-619): cell record header + record + children. -/
def MobCell.getSize (c : MobCell) : Nat :=
  hsize + c.cell.getSize + c.getChildrenSize

/-- `MobCell._write_group_header` (lines 703-705): a `GrupHeader` whose label
is the cell's FormID. -/
def MobCell.groupHeader (c : MobCell) (group_size group_type : Nat) : List Nat :=
  packGrupN group_size c.cell.fid group_type c.stamp

/-- `MobCell.dump` (lines 679-701): cell record, then (if any children) the
cell-children group header and the three bucket sub-groups; PGRD and LAND are
dumped first inside the temporary sub-group. -/
def MobCell.dump (c : MobCell) : List Nat :=
  c.cell.dump ++
    (if c.getChildrenSize = 0 then []
     else
       c.groupHeader c.getChildrenSize 6 ++
         (if c.persistent ≠ [] then
            c.groupHeader c.getPersistentSize 8 ++ catMap SRec.dump c.persistent
          else []) ++
         (if c.temp ≠ [] ∨ c.pgrd.isSome ∨ c.land.isSome then
            c.groupHeader c.getTempSize 9 ++ optDump c.pgrd ++ optDump c.land ++
              catMap SRec.dump c.temp
          else []) ++
         (if c.distant ≠ [] then
            c.groupHeader c.getDistantSize 10 ++ catMap SRec.dump c.distant
          else []))

/-- `MobCell.getBsb` (lines 663-677).  Interior: two digits of the masked
numeric FormID.  Exterior: the source binds `x, y = cell.posY, cell.posX` and
returns `((x//32, y//32), (x//8, y//8))`, i.e. y-major grid tuples. -/
def MobCell.getBsb (c : MobCell) : Bsb :=
  if c.cell.isInterior then
    let baseFid := c.cell.fid % 16777216
    (.int (baseFid % 10), .int (baseFid % 100 / 10))
  else
    let x := c.cell.posY.getD 0
    let y := c.cell.posX.getD 0
    (.ext (x.fdiv 32) (y.fdiv 32), .ext (x.fdiv 8) (y.fdiv 8))

/-- `MobObjects`: a flat top-level group of one record signature
(lines 185-192).  `size`, `label`, `stamp` and `data` mirror the header fields
and raw buffer of the unchanged state; top-group headers carry group type 0. -/
structure MobObjects where
  size : Nat
  label : Nat
  stamp : Nat
  changed : Bool
  data : List Nat
  records : List SRec
  deriving DecidableEq

/-- `MobObjects.getSize` (lines 225-232). -/
def MobObjects.getSize (g : MobObjects) : Nat :=
  if ¬g.changed then g.size
  else hsize + sumBy (fun r => hsize + r.getSize) g.records

/-- `MobObjects.dump` (lines 234-245): unchanged groups re-emit header + raw
bytes; changed groups recompute, and an empty group (size = header size)
writes nothing at all. -/
def MobObjects.dump (g : MobObjects) : List Nat :=
  if ¬g.changed then packGrupN g.size g.label 0 g.stamp ++ g.data
  else
    let size := g.getSize
    if size = hsize then []
    else packGrupN size g.label 0 g.stamp ++ catMap SRec.dump g.records

/-- A DIAL record together with its INFO children.  Modelled from the spec:
the DIAL record class lives in the external `record_structs` collaborator;
per spec §4.3 a topic dumps itself followed by a synthetic sub-group
(group type 7) holding its INFO children when it has any. -/
structure DialRec where
  topic : SRec
  infos : List SRec
  deriving DecidableEq

def DialRec.infosSize (d : DialRec) : Nat :=
  sumBy (fun i => hsize + i.getSize) d.infos

def DialRec.dump (d : DialRec) (stamp : Nat) : List Nat :=
  d.topic.dump ++
    (if d.infos ≠ [] then
       packGrupN (hsize + d.infosSize) d.topic.fid 7 stamp ++ catMap SRec.dump d.infos
     else [])

/-- `MobDials`: the DIAL top block (lines 364-365). -/
structure MobDials where
  size : Nat
  label : Nat
  stamp : Nat
  changed : Bool
  data : List Nat
  records : List DialRec
  deriving DecidableEq

/-- `MobDials.getSize` (lines 413-426). -/
def MobDials.getSize (g : MobDials) : Nat :=
  if ¬g.changed then g.size
  else
    hsize + sumBy (fun d => hsize + d.topic.getSize +
      (if d.infos ≠ [] then hsize + d.infosSize else 0)) g.records

/-- `MobDials.dump` is inherited from `MobObjects.dump` (lines 234-245), with
`MobDials.getSize` and the DIAL records dumping their INFO children. -/
def MobDials.dump (g : MobDials) : List Nat :=
  if ¬g.changed then packGrupN g.size g.label 0 g.stamp ++ g.data
  else
    let size := g.getSize
    if size = hsize then []
    else packGrupN size g.label 0 g.stamp ++ catMap (fun d => d.dump g.stamp) g.records

/-- `MobBase`: the unparsed container (lines 38-131): header fields plus the
verbatim raw buffer read by `load` when not unpacking. -/
structure MobBase where
  size : Nat
  label : Nat
  groupType : Nat
  stamp : Nat
  changed : Bool
  data : List Nat
  deriving DecidableEq

/-- Decode a 4-byte little-endian size field. -/
def le4dec (bs : List Nat) : Nat :=
  match bs with
  | b0 :: b1 :: b2 :: b3 :: _ => b0 + 256 * b1 + 65536 * b2 + 16777216 * b3
  | _ => 0

/-- The header-only scan of `MobBase.getNumRecords` (lines 102-115): decode
each child header, skip its payload (group children are counted without
skipping their payload, since their size includes their members), tally. -/
def scanRecs : Nat → List Nat → Nat
  | 0, _ => 0
  | _, [] => 0
  | fuel + 1, bs =>
    if bs.length < hsize then 0
    else
      let recType := bs.take 4
      let sz := le4dec (bs.drop 4)
      let skip := if recType = grupSig then 0 else sz
      1 + scanRecs fuel (bs.drop (hsize + skip))

/-- `MobBase.getNumRecords` (lines 92-116) on an unchanged container with
`includeGroups = True`: no data means no records (not even self). -/
def MobBase.numRecords (g : MobBase) : Nat :=
  if g.data = [] then 0 else scanRecs g.data.length g.data + 1

/-- `MobBase.dump` (lines 118-127): raises on a changed container; writes the
original header followed by the raw data, but only when the record count is
positive — an empty group writes nothing. -/
def MobBase.dumpE (g : MobBase) : Except String (List Nat) :=
  if g.changed then .error "AbstractError"
  else if g.numRecords > 0 then
    .ok (packGrupN g.size g.label g.groupType g.stamp ++ g.data)
  else .ok []

/-- State after `MobBase.load(ins, do_unpack=False)` (lines 63-77) of a group
region whose header declared `size = hsize + |body|`. -/
def MobBase.ofRegion (lbl gt st : Nat) (body : List Nat) : MobBase :=
  { size := hsize + body.length, label := lbl, groupType := gt, stamp := st,
    changed := false, data := body }

/-- The byte region such a load consumed: header bytes followed by the body. -/
def baseRegion (lbl gt st : Nat) (body : List Nat) : List Nat :=
  packGrupN (hsize + body.length) lbl gt st ++ body

/-- State after `MobObjects.load(ins, do_unpack=False)`: like `MobBase`, the
raw buffer is stored verbatim and no records are parsed. -/
def MobObjects.ofRegion (lbl st : Nat) (body : List Nat) : MobObjects :=
  { size := hsize + body.length, label := lbl, stamp := st,
    changed := false, data := body, records := [] }

/-- The top-group byte region such a load consumed (top groups have
group type 0). -/
def topRegion (lbl st : Nat) (body : List Nat) : List Nat :=
  packGrupN (hsize + body.length) lbl 0 st ++ body

/-- Strict form of the bucket-key order. -/
def bsbLt (p q : Bsb) : Bool := bsbLe p q && !(bsbLe q p)

/-- The composite sort key of `MobCells.getBsbSizes` (lines 905-907): a stable
sort by `cell.fid` followed by a stable sort by bsb equals one sort by the
lexicographic pair `(bsb, fid)`. -/
def itemLe (a b : Bsb × MobCell) : Prop :=
  bsbLt a.1 b.1 = true ∨ (a.1 = b.1 ∧ a.2.cell.fid ≤ b.2.cell.fid)

instance : DecidableRel itemLe := fun a b => by unfold itemLe; infer_instance

instance : IsTotal (Bsb × MobCell) itemLe where
  total a b := by
    by_cases he : a.1 = b.1
    · rcases Nat.le_total a.2.cell.fid b.2.cell.fid with h | h
      · exact Or.inl (Or.inr ⟨he, h⟩)
      · exact Or.inr (Or.inr ⟨he.symm, h⟩)
    · rcases bsbLe_total a.1 b.1 with h | h
      · have : bsbLe b.1 a.1 = false := by
          cases hr : bsbLe b.1 a.1
          · rfl
          · exact absurd (bsbLe_antisymm h hr) he
        exact Or.inl (Or.inl (by simp [bsbLt, h, this]))
      · have : bsbLe a.1 b.1 = false := by
          cases hr : bsbLe a.1 b.1
          · rfl
          · exact absurd (bsbLe_antisymm hr h) he
        exact Or.inr (Or.inl (by simp [bsbLt, h, this]))

theorem bsbLt_le {p q : Bsb} (h : bsbLt p q = true) : bsbLe p q = true := by
  simp only [bsbLt, Bool.and_eq_true] at h; exact h.1

theorem bsbLt_not_rev {p q : Bsb} (h : bsbLt p q = true) : bsbLe q p = false := by
  simp only [bsbLt, Bool.and_eq_true, Bool.not_eq_true'] at h; exact h.2

theorem bsbLt_trans {p q r : Bsb} (h1 : bsbLt p q = true) (h2 : bsbLt q r = true) :
    bsbLt p r = true := by
  simp only [bsbLt, Bool.and_eq_true, Bool.not_eq_true'] at *
  refine ⟨bsbLe_trans h1.1 h2.1, ?_⟩
  cases hr : bsbLe r p
  · rfl
  · exact absurd (bsbLe_trans hr h1.1) (by simp [h2.2])

instance : IsTrans (Bsb × MobCell) itemLe where
  trans a b c h1 h2 := by
    rcases h1 with h1 | ⟨he1, hf1⟩ <;> rcases h2 with h2 | ⟨he2, hf2⟩
    · exact Or.inl (bsbLt_trans h1 h2)
    · exact Or.inl (he2 ▸ h1)
    · exact Or.inl (he1 ▸ h2)
    · exact Or.inr ⟨he1.trans he2, hf1.trans hf2⟩

theorem itemLe_fst {a b : Bsb × MobCell} (h : itemLe a b) : bsbLe a.1 b.1 = true := by
  rcases h with h | ⟨he, -⟩
  · exact bsbLt_le h
  · exact he ▸ bsbLe_refl a.1

/-- Key type of the `bsb_size` dict: either a `(block, None)` block key or a
`(block, subblock)` pair key. -/
abbrev BKey := BSide × Option BSide

/-- Accumulator of `MobCells.getBsbSizes` (lines 902-922): the key set and
values of the `bsb_size` dict plus the running `totalSize`. -/
structure BsbAcc where
  keys : Finset BKey
  sizes : BKey → Nat
  total : Nat

/-- One iteration of the `getBsbSizes` loop (lines 912-920). -/
def bsbStep (acc : BsbAcc) (item : Bsb × MobCell) : BsbAcc :=
  let cellBlockSize := item.2.getSize
  let bsb0 : BKey := (item.1.1, none)
  let bsbK : BKey := (item.1.1, some item.1.2)
  let sizes1 := if bsb0 ∈ acc.keys then acc.sizes else Function.update acc.sizes bsb0 hsize
  let keys1 := insert bsb0 acc.keys
  let sdVal := if bsbK ∈ keys1 then sizes1 bsbK else hsize
  let sizes2 := if bsbK ∈ keys1 then sizes1 else Function.update sizes1 bsbK hsize
  let keys2 := insert bsbK keys1
  let sizes3 := if sdVal = hsize then Function.update sizes2 bsb0 (sizes2 bsb0 + hsize)
                else sizes2
  let sizes4 := Function.update sizes3 bsbK (sizes3 bsbK + cellBlockSize)
  let sizes5 := Function.update sizes4 bsb0 (sizes4 bsb0 + cellBlockSize)
  { keys := keys2, sizes := sizes5, total := acc.total + cellBlockSize }

/-- `MobCells.getBsbSizes` (lines 902-922): returns the total size, the
`bsb_size` dict and the sorted `(bsb, cellBlock)` list. -/
def getBsbSizes (cellBlocks : List MobCell) : Nat × (BKey → Nat) × List (Bsb × MobCell) :=
  let items := List.insertionSort itemLe (cellBlocks.map fun x => (x.getBsb, x))
  let acc := items.foldl bsbStep ⟨∅, fun _ => 0, hsize⟩
  (acc.total + hsize * acc.keys.card, acc.sizes, items)

/-- The loop of `MobCells.dumpBlocks` (lines 924-943): emit a block group
header at every block transition (which also resets the current sub-block),
a sub-block group header at every sub-block transition, then the cell block. -/
def dumpBlocksGo (stamp bt st : Nat) (sizes : BKey → Nat) :
    Option BSide → Option BSide → List (Bsb × MobCell) → List Nat
  | _, _, [] => []
  | curB, curS, (bsb, cellBlock) :: rest =>
    (if some bsb.1 ≠ curB then
       packGrupL (sizes (bsb.1, none)) (labelBytes bsb.1) bt stamp
     else []) ++
    (if some bsb.2 ≠ (if some bsb.1 ≠ curB then (none : Option BSide) else curS) then
       packGrupL (sizes (bsb.1, some bsb.2)) (labelBytes bsb.2) st stamp
     else []) ++
    cellBlock.dump ++
      dumpBlocksGo stamp bt st sizes (some bsb.1) (some bsb.2) rest

def dumpBlocks (stamp : Nat) (sizes : BKey → Nat) (bt st : Nat)
    (items : List (Bsb × MobCell)) : List Nat :=
  dumpBlocksGo stamp bt st sizes none none items

/-- `MobICells`: the interior-cell top block (lines 1040-1041). -/
structure MobICells where
  size : Nat
  label : Nat
  groupType : Nat
  stamp : Nat
  changed : Bool
  data : List Nat
  cellBlocks : List MobCell

/-- The total size that `MobICells.dump` stamps into its group header. -/
def MobICells.totalSize (g : MobICells) : Nat := (getBsbSizes g.cellBlocks).1

/-- `MobICells.dump` (lines 1108-1117). -/
def MobICells.dump (g : MobICells) : List Nat :=
  if ¬g.changed then packGrupN g.size g.label g.groupType g.stamp ++ g.data
  else if g.cellBlocks = [] then []
  else
    let r := getBsbSizes g.cellBlocks
    packGrupN r.1 g.label g.groupType g.stamp ++ dumpBlocks g.stamp r.2.1 2 3 r.2.2

def optCellSize : Option MobCell → Nat
  | none => 0
  | some cb => cb.getSize

def optCellDump : Option MobCell → List Nat
  | none => []
  | some cb => cb.dump

/-- `MobWorld`: one world block (lines 1120-1125). -/
structure MobWorld where
  size : Nat
  label : Nat
  groupType : Nat
  stamp : Nat
  changed : Bool
  data : List Nat
  world : SRec
  road : Option SRec
  worldCellBlock : Option MobCell
  cellBlocks : List MobCell
  deriving DecidableEq

/-- `MobWorld.dump` (lines 1255-1282): returns the bytes written and the
value the function returns (the declared total size of the world block). -/
def MobWorld.dump (w : MobWorld) : List Nat × Nat :=
  let worldSize := w.world.getSize + hsize
  if ¬w.changed then
    (w.world.dump ++ packGrupN w.size w.label w.groupType w.stamp ++ w.data,
     w.size + worldSize)
  else if w.cellBlocks ≠ [] ∨ w.road.isSome ∨ w.worldCellBlock.isSome then
    let r := getBsbSizes w.cellBlocks
    let totalSize := r.1 +
      (match w.road with | some rd => rd.getSize + hsize | none => 0) +
      optCellSize w.worldCellBlock
    (w.world.dump ++ packGrupN totalSize w.world.fid 1 w.stamp ++ optDump w.road ++
       optCellDump w.worldCellBlock ++ dumpBlocks w.stamp r.2.1 4 5 r.2.2,
     totalSize + worldSize)
  else (w.world.dump, worldSize)

/-- `MobWorld` does not override `getSize`, so `MobBase.getSize` (lines 87-90)
is used: it raises `AbstractError` on a changed block and otherwise reports
only the children-group size stored in the header. -/
def MobWorld.getSizeE (w : MobWorld) : Except String Nat :=
  if w.changed then .error "AbstractError" else .ok w.size

/-- `MobWorlds`: the WRLD top block (lines 1405-1413). -/
structure MobWorlds where
  size : Nat
  label : Nat
  groupType : Nat
  stamp : Nat
  changed : Bool
  data : List Nat
  worldBlocks : List MobWorld

def sumSizesE : List MobWorld → Except String Nat
  | [] => .ok 0
  | w :: t =>
    match w.getSizeE with
    | .error e => .error e
    | .ok s =>
      match sumSizesE t with
      | .error e => .error e
      | .ok rest => .ok (s + rest)

/-- `MobWorlds.getSize` (lines 1476-1479): header size plus the `getSize` of
every world block (which raises on changed blocks). -/
def MobWorlds.getSizeE (ws : MobWorlds) : Except String Nat :=
  match sumSizesE ws.worldBlocks with
  | .error e => .error e
  | .ok s => .ok (hsize + s)

/-- `MobWorlds.dump` (lines 1481-1495).  The changed branch writes a header
with size 0, dumps the world blocks while summing their return values, then
seeks back and patches the size field to the accumulated total; the net bytes
are the header with the final total followed by the block dumps. -/
def MobWorlds.dump (ws : MobWorlds) : List Nat :=
  if ¬ws.changed then packGrupN ws.size ws.label ws.groupType ws.stamp ++ ws.data
  else if ws.worldBlocks = [] then []
  else
    let total := hsize + sumBy (fun w => (MobWorld.dump w).2) ws.worldBlocks
    packGrupN total ws.label 0 ws.stamp ++ catMap (fun w => (MobWorld.dump w).1) ws.worldBlocks

theorem BSide.lt_le {x y : BSide} (h : x.lt y = true) : x.le y = true := by
  simp only [BSide.lt, Bool.and_eq_true] at h; exact h.1

theorem BSide.lt_not_rev {x y : BSide} (h : x.lt y = true) : y.le x = false := by
  simp only [BSide.lt, Bool.and_eq_true, Bool.not_eq_true'] at h; exact h.2

/-- Number of group headers `dumpBlocks` emits while walking a bucket list
with the given current block/sub-block state. -/
def transCount : Option BSide → Option BSide → List Bsb → Nat
  | _, _, [] => 0
  | curB, curS, p :: t =>
    (if some p.1 ≠ curB then 2 else if some p.2 ≠ curS then 1 else 0) +
      transCount (some p.1) (some p.2) t

/-- On a list sorted by bucket key, every block transition is a new distinct
block and every sub-block transition a new distinct pair, so the number of
headers emitted equals the number of distinct blocks plus distinct pairs. -/
theorem transCount_sorted_cons (t : List Bsb) : ∀ p : Bsb,
    (p :: t).Pairwise (fun x y => bsbLe x y = true) →
    2 + transCount (some p.1) (some p.2) t =
      ((p :: t).map Prod.fst).dedup.length + (p :: t).dedup.length := by
  induction t with
  | nil => intro p _; simp [transCount]
  | cons q t2 ih =>
    intro p h
    obtain ⟨hpall, ht⟩ := List.pairwise_cons.1 h
    have hpq : bsbLe p q = true := hpall q (by simp)
    have hqt : ∀ r ∈ t2, bsbLe q r = true := fun r hr => (List.pairwise_cons.1 ht).1 r hr
    have iht := ih q ht
    have hstep : transCount (some p.1) (some p.2) (q :: t2) =
        (if some q.1 ≠ some p.1 then 2 else if some q.2 ≠ some p.2 then 1 else 0) +
          transCount (some q.1) (some q.2) t2 := rfl
    by_cases he1 : q.1 = p.1
    · by_cases he2 : q.2 = p.2
      · have hqp : q = p := Prod.ext he1 he2
        subst hqp
        have hmem : q ∈ q :: t2 := by simp
        have hmem1 : q.1 ∈ (q :: t2).map Prod.fst := by simp
        have hc : (if some q.1 ≠ some q.1 then 2 else if some q.2 ≠ some q.2 then 1 else 0)
            = 0 := by simp
        rw [hstep, hc, List.map_cons, List.dedup_cons_of_mem hmem,
          List.dedup_cons_of_mem hmem1]
        simp only [List.map_cons] at iht ⊢
        omega
      · have hpnotmem : p ∉ q :: t2 := by
          intro hm
          rcases List.mem_cons.1 hm with hm | hm
          · exact he2 (by rw [← hm])
          · exact he2 (by rw [bsbLe_antisymm hpq (hqt p hm)])
        have hmem1 : p.1 ∈ (q :: t2).map Prod.fst := by
          simp [he1]
        rw [hstep, List.map_cons, List.dedup_cons_of_not_mem hpnotmem,
          List.dedup_cons_of_mem hmem1]
        have hc : (if some q.1 ≠ some p.1 then 2 else if some q.2 ≠ some p.2 then 1 else 0)
            = 1 := by simp [he1, he2]
        rw [hc]
        simp only [List.map_cons, List.length_cons] at iht ⊢
        omega
    · have hlt : BSide.lt p.1 q.1 = true := by
        rcases bsbLe_fst hpq with h1 | h1
        · exact absurd h1.symm he1
        · exact h1
      have hpnotmem : p ∉ q :: t2 := by
        intro hm
        rcases List.mem_cons.1 hm with hm | hm
        · exact he1 (by rw [← hm])
        · exact he1 (by rw [bsbLe_antisymm hpq (hqt p hm)])
      have hp1notmem : p.1 ∉ (q :: t2).map Prod.fst := by
        intro hm
        simp only [List.map_cons, List.mem_cons, List.mem_map] at hm
        rcases hm with hm | ⟨r, hr, hre⟩
        · exact he1 hm.symm
        · rcases bsbLe_fst (hqt r hr) with h1 | h1
          · exact he1 (h1.trans hre)
          · rw [hre] at h1
            exact absurd (BSide.lt_le h1) (by simp [BSide.lt_not_rev hlt])
      rw [hstep, List.map_cons, List.dedup_cons_of_not_mem hpnotmem,
        List.dedup_cons_of_not_mem hp1notmem]
      have hc : (if some q.1 ≠ some p.1 then 2 else if some q.2 ≠ some p.2 then 1 else 0)
          = 2 := by simp [he1]
      rw [hc]
      simp only [List.map_cons, List.length_cons] at iht ⊢
      omega

theorem transCount_sorted (l : List Bsb)
    (h : l.Pairwise (fun x y => bsbLe x y = true)) :
    transCount none none l = (l.map Prod.fst).dedup.length + l.dedup.length := by
  cases l with
  | nil => rfl
  | cons p t =>
    have h2 := transCount_sorted_cons t p h
    have hstep : transCount none none (p :: t) =
        2 + transCount (some p.1) (some p.2) t := by
      simp [transCount]
    omega

/-- The length of a deduplicated list is preserved by an injective map. -/
theorem dedup_length_map_inj {α β : Type} [DecidableEq α] [DecidableEq β] (f : α → β)
    (hf : ∀ a b, f a = f b → a = b) :
    ∀ l : List α, ((l.map f).dedup).length = l.dedup.length
  | [] => rfl
  | a :: t => by
    by_cases h : a ∈ t
    · rw [List.map_cons, List.dedup_cons_of_mem (List.mem_map_of_mem f h),
        List.dedup_cons_of_mem h, dedup_length_map_inj f hf t]
    · have hna : f a ∉ t.map f := by
        intro hm
        obtain ⟨b, hb, he⟩ := List.mem_map.1 hm
        exact h (hf b a he ▸ hb)
      rw [List.map_cons, List.dedup_cons_of_not_mem hna, List.dedup_cons_of_not_mem h]
      simp [dedup_length_map_inj f hf t]

/-- The key set that the `getBsbSizes` loop builds: a `(block, None)` key and
a `(block, subblock)` key per bucket. -/
def bkeysSet : List Bsb → Finset BKey
  | [] => ∅
  | p :: t => insert (p.1, (none : Option BSide)) (insert (p.1, some p.2) (bkeysSet t))

theorem bkeysSet_eq (l : List Bsb) :
    bkeysSet l = (l.map fun p => ((p.1 : BSide), (none : Option BSide))).toFinset ∪
      (l.map fun p => ((p.1 : BSide), some p.2)).toFinset := by
  induction l with
  | nil => simp [bkeysSet]
  | cons p t ih =>
    simp only [bkeysSet, ih, List.map_cons, List.toFinset_cons]
    ext k
    simp only [Finset.mem_insert, Finset.mem_union]
    tauto

theorem card_bkeysSet (l : List Bsb) :
    (bkeysSet l).card = (l.map Prod.fst).dedup.length + l.dedup.length := by
  have hdisj : Disjoint ((l.map fun p => ((p.1 : BSide), (none : Option BSide))).toFinset)
      ((l.map fun p => ((p.1 : BSide), some p.2)).toFinset) := by
    rw [Finset.disjoint_left]
    intro k hk1 hk2
    simp only [List.mem_toFinset, List.mem_map] at hk1 hk2
    obtain ⟨a, -, ha⟩ := hk1
    obtain ⟨b, -, hb⟩ := hk2
    rw [← ha] at hb
    exact Option.noConfusion (congrArg Prod.snd hb)
  rw [bkeysSet_eq, Finset.card_union_of_disjoint hdisj, List.card_toFinset,
    List.card_toFinset]
  have h1 : (l.map fun p => ((p.1 : BSide), (none : Option BSide))) =
      (l.map Prod.fst).map (fun k => (k, none)) := by
    simp [List.map_map]
  have h2 : ((l.map fun p => ((p.1 : BSide), some p.2)).dedup).length = l.dedup.length := by
    apply dedup_length_map_inj
    intro a b hab
    injection hab with hf hs
    exact Prod.ext hf (Option.some.inj hs)
  have h3 : ∀ a b : BSide, (a, (none : Option BSide)) = (b, none) → a = b := by
    intro a b hab
    injection hab
  rw [h1, h2, dedup_length_map_inj (fun k => (k, (none : Option BSide))) h3]

theorem foldl_bsbStep_keys (items : List (Bsb × MobCell)) : ∀ acc : BsbAcc,
    (items.foldl bsbStep acc).keys = acc.keys ∪ bkeysSet (items.map Prod.fst) := by
  induction items with
  | nil => intro acc; simp [bkeysSet]
  | cons it t ih =>
    intro acc
    rw [List.foldl_cons, ih]
    have hk : (bsbStep acc it).keys = insert (it.1.1, some it.1.2)
        (insert (it.1.1, (none : Option BSide)) acc.keys) := rfl
    rw [hk, List.map_cons]
    simp only [bkeysSet]
    ext k
    simp only [Finset.mem_insert, Finset.mem_union]
    tauto

theorem foldl_bsbStep_total (items : List (Bsb × MobCell)) : ∀ acc : BsbAcc,
    (items.foldl bsbStep acc).total = acc.total + sumBy (fun it => it.2.getSize) items := by
  induction items with
  | nil => intro acc; simp
  | cons it t ih =>
    intro acc
    rw [List.foldl_cons, ih]
    have : (bsbStep acc it).total = acc.total + it.2.getSize := rfl
    rw [this, sumBy_cons]
    omega

theorem length_dumpBlocksGo (stamp bt st : Nat) (sizes : BKey → Nat) :
    ∀ (l : List (Bsb × MobCell)) (curB curS : Option BSide),
    (dumpBlocksGo stamp bt st sizes curB curS l).length =
      hsize * transCount curB curS (l.map Prod.fst) +
        sumBy (fun it => it.2.dump.length) l
  | [], _, _ => by simp [dumpBlocksGo, transCount]
  | (bsb, cb) :: rest, curB, curS => by
    have ihr := length_dumpBlocksGo stamp bt st sizes rest (some bsb.1) (some bsb.2)
    simp only [dumpBlocksGo, transCount, List.map_cons]
    by_cases hb : some bsb.1 ≠ curB
    · rw [if_pos hb, if_pos hb, if_pos hb, if_pos (by simp : some bsb.2 ≠ (none : Option BSide))]
      simp only [List.length_append, sumBy_cons,
        length_packGrupL _ _ _ _ (length_labelBytes _)]
      rw [ihr]
      simp only [hsize]
      omega
    · rw [if_neg hb, if_neg hb, if_neg hb]
      by_cases hs : some bsb.2 ≠ curS
      · rw [if_pos hs, if_pos hs]
        simp only [List.length_append, List.length_nil, sumBy_cons,
          length_packGrupL _ _ _ _ (length_labelBytes _)]
        rw [ihr]
        simp only [hsize]
        omega
      · rw [if_neg hs, if_neg hs]
        simp only [List.length_append, List.length_nil, sumBy_cons]
        rw [ihr]
        simp only [hsize]
        omega

theorem sumBy_ext {α : Type} (f g : α → Nat) (h : ∀ a, f a = g a) :
    ∀ l : List α, sumBy f l = sumBy g l
  | [] => rfl
  | a :: t => by simp [h a, sumBy_ext f g h t]

theorem length_catMap_mem {α : Type} (f : α → List Nat) (g : α → Nat) :
    ∀ l : List α, (∀ a ∈ l, (f a).length = g a) → (catMap f l).length = sumBy g l
  | [], _ => rfl
  | a :: t, h => by
    simp [h a (by simp), length_catMap_mem f g t (fun b hb => h b (by simp [hb]))]

theorem length_catMap_dump (l : List SRec) :
    (catMap SRec.dump l).length = sumBy (fun x => hsize + x.getSize) l :=
  length_catMap _ _ SRec.length_srec_dump l

theorem sumBy_hsize_ne_zero {α : Type} (f : α → Nat) {l : List α} (h : l ≠ []) :
    sumBy (fun x => hsize + f x) l ≠ 0 := by
  cases l with
  | nil => exact absurd rfl h
  | cons a t => simp [hsize]

theorem MobCell.length_groupHeader (c : MobCell) (a b : Nat) :
    (c.groupHeader a b).length = hsize := rfl

theorem CellRec.length_cellrec_dump (c : CellRec) : c.dump.length = hsize + c.getSize :=
  SRec.length_srec_dump c.r

theorem MobCell.persChunk_length (c : MobCell) :
    ((if c.persistent ≠ [] then
        c.groupHeader c.getPersistentSize 8 ++ catMap SRec.dump c.persistent
      else []) : List Nat).length = c.getPersistentSize := by
  by_cases h : c.persistent = []
  · simp [h, MobCell.getPersistentSize]
  · have h' : sumBy (fun x => hsize + x.getSize) c.persistent ≠ 0 :=
      sumBy_hsize_ne_zero SRec.getSize h
    rw [if_pos h, List.length_append, MobCell.length_groupHeader, length_catMap_dump]
    simp only [MobCell.getPersistentSize]
    rw [if_pos h']
    omega

theorem MobCell.distChunk_length (c : MobCell) :
    ((if c.distant ≠ [] then
        c.groupHeader c.getDistantSize 10 ++ catMap SRec.dump c.distant
      else []) : List Nat).length = c.getDistantSize := by
  by_cases h : c.distant = []
  · simp [h, MobCell.getDistantSize]
  · have h' : sumBy (fun x => hsize + x.getSize) c.distant ≠ 0 :=
      sumBy_hsize_ne_zero SRec.getSize h
    rw [if_pos h, List.length_append, MobCell.length_groupHeader, length_catMap_dump]
    simp only [MobCell.getDistantSize]
    rw [if_pos h']
    omega

theorem MobCell.temp_present_ne_zero (c : MobCell)
    (h : c.temp ≠ [] ∨ c.pgrd.isSome ∨ c.land.isSome) :
    sumBy (fun x => hsize + x.getSize) c.temp + optSize c.pgrd + optSize c.land ≠ 0 := by
  rcases h with h | h | h
  · have := sumBy_hsize_ne_zero SRec.getSize h
    omega
  · cases hp : c.pgrd with
    | none => rw [hp] at h; exact absurd h (by simp)
    | some r =>
      have hx : optSize (some r) = hsize + r.getSize := rfl
      simp only [hsize] at hx
      omega
  · cases hl : c.land with
    | none => rw [hl] at h; exact absurd h (by simp)
    | some r =>
      have hx : optSize (some r) = hsize + r.getSize := rfl
      simp only [hsize] at hx
      omega

theorem MobCell.tempChunk_length (c : MobCell) :
    ((if c.temp ≠ [] ∨ c.pgrd.isSome ∨ c.land.isSome then
        c.groupHeader c.getTempSize 9 ++ optDump c.pgrd ++ optDump c.land ++
          catMap SRec.dump c.temp
      else []) : List Nat).length = c.getTempSize := by
  by_cases h : c.temp ≠ [] ∨ c.pgrd.isSome ∨ c.land.isSome
  · have hne := MobCell.temp_present_ne_zero c h
    rw [if_pos h, List.length_append, List.length_append, List.length_append,
      MobCell.length_groupHeader, length_catMap_dump, length_optDump, length_optDump]
    simp only [MobCell.getTempSize]
    rw [if_pos hne]
    omega
  · push_neg at h
    obtain ⟨h1, h2, h3⟩ := h
    cases hp : c.pgrd with
    | some r => rw [hp] at h2; simp at h2
    | none =>
      cases hl : c.land with
      | some r => rw [hl] at h3; simp at h3
      | none =>
        rw [if_neg (by simp [h1, hp, hl])]
        simp [h1, hp, hl, MobCell.getTempSize, optSize]

theorem MobCell.length_mobcell_dump (c : MobCell) : c.dump.length = c.getSize := by
  rw [MobCell.dump, MobCell.getSize]
  by_cases h : c.getChildrenSize = 0
  · simp [h, CellRec.length_cellrec_dump]
  · rw [if_neg h]
    have hsum : c.getPersistentSize + c.getTempSize + c.getDistantSize ≠ 0 := by
      intro h0
      exact h (by simp [MobCell.getChildrenSize, h0])
    have hcs : c.getChildrenSize =
        c.getPersistentSize + c.getTempSize + c.getDistantSize + hsize := by
      simp only [MobCell.getChildrenSize]
      rw [if_pos hsum]
    simp only [List.length_append]
    rw [MobCell.persChunk_length, MobCell.tempChunk_length, MobCell.distChunk_length,
      MobCell.length_groupHeader, CellRec.length_cellrec_dump, hcs]
    omega

theorem MobObjects.length_mobobjects_dump_changed (g : MobObjects) (hc : g.changed = true)
    (hr : g.records ≠ []) : g.dump.length = g.getSize := by
  have hgs : g.getSize = hsize + sumBy (fun r => hsize + r.getSize) g.records := by
    simp only [MobObjects.getSize, hc, Bool.not_true]
    rw [if_neg (by simp)]
  have hne : g.getSize ≠ hsize := by
    rw [hgs]
    have := sumBy_hsize_ne_zero SRec.getSize hr
    omega
  simp only [MobObjects.dump, hc, Bool.not_true]
  rw [if_neg (by simp), if_neg hne, List.length_append, length_packGrupN,
    length_catMap_dump, hgs]

theorem DialRec.length_dialrec_dump (d : DialRec) (stamp : Nat) :
    (d.dump stamp).length = hsize + d.topic.getSize +
      (if d.infos ≠ [] then hsize + d.infosSize else 0) := by
  by_cases h : d.infos = []
  · simp [DialRec.dump, h, SRec.length_srec_dump]
  · rw [DialRec.dump, if_pos h, if_pos h, List.length_append, List.length_append,
      length_packGrupN, length_catMap_dump, SRec.length_srec_dump]
    rfl

theorem MobDials.length_mobdials_dump_changed (g : MobDials) (hc : g.changed = true)
    (hr : g.records ≠ []) : g.dump.length = g.getSize := by
  have hgs : g.getSize = hsize + sumBy (fun d => hsize + d.topic.getSize +
      (if d.infos ≠ [] then hsize + d.infosSize else 0)) g.records := by
    simp only [MobDials.getSize, hc, Bool.not_true]
    rw [if_neg (by simp)]
  have hne : g.getSize ≠ hsize := by
    rw [hgs]
    cases hrr : g.records with
    | nil => exact absurd hrr hr
    | cons a t =>
      simp only [sumBy_cons, hsize]
      omega
  simp only [MobDials.dump, hc, Bool.not_true]
  rw [if_neg (by simp), if_neg hne, List.length_append, length_packGrupN,
    length_catMap_mem (fun d => d.dump g.stamp)
      (fun d => hsize + d.topic.getSize + (if d.infos ≠ [] then hsize + d.infosSize else 0))
      g.records (fun d _ => DialRec.length_dialrec_dump d g.stamp), hgs]

/-- Byte count of `dumpBlocks` on the sorted bucket list against the total of
`getBsbSizes`: the heart of the size/dump agreement for cell containers. -/
theorem length_dumpBlocks_eq (stamp bt st : Nat) (cellBlocks : List MobCell) :
    hsize + (dumpBlocks stamp (getBsbSizes cellBlocks).2.1 bt st
      (getBsbSizes cellBlocks).2.2).length = (getBsbSizes cellBlocks).1 := by
  simp only [getBsbSizes, dumpBlocks]
  generalize hit : List.insertionSort itemLe (cellBlocks.map fun x => (x.getBsb, x)) = items
  have hsorted : items.Pairwise itemLe := hit ▸ List.sorted_insertionSort itemLe _
  have hmap : (items.map Prod.fst).Pairwise (fun x y => bsbLe x y = true) :=
    List.Pairwise.map Prod.fst (fun a b hab => itemLe_fst hab) hsorted
  have htc := transCount_sorted (items.map Prod.fst) hmap
  have hcard := card_bkeysSet (items.map Prod.fst)
  have hsum : sumBy (fun it => it.2.dump.length) items =
      sumBy (fun it => it.2.getSize) items :=
    sumBy_ext (fun it : Bsb × MobCell => it.2.dump.length) (fun it => it.2.getSize)
      (fun it => MobCell.length_mobcell_dump it.2) items
  have htot : (items.foldl bsbStep ⟨∅, fun _ => 0, hsize⟩).total =
      hsize + sumBy (fun it => it.2.getSize) items := by
    rw [foldl_bsbStep_total]
  have hkeys : (items.foldl bsbStep ⟨∅, fun _ => 0, hsize⟩).keys =
      bkeysSet (items.map Prod.fst) := by
    rw [foldl_bsbStep_keys]
    exact Finset.empty_union _
  rw [length_dumpBlocksGo, htc, htot, hkeys, hcard, hsum]
  simp only [hsize]
  omega

/-- `MobICells.dump` on a changed, nonempty block writes exactly the number of
bytes it stamps into its own group header. -/
theorem MobICells.length_mobicells_dump_changed (g : MobICells) (hc : g.changed = true)
    (hr : g.cellBlocks ≠ []) : g.dump.length = g.totalSize := by
  have hkey := length_dumpBlocks_eq g.stamp 2 3 g.cellBlocks
  rw [MobICells.dump, MobICells.totalSize]
  rw [if_neg (by simp [hc]), if_neg hr]
  simp only [List.length_append, length_packGrupN]
  omega

/-- `MobWorld.dump` on a changed world block writes exactly as many bytes as
the total it returns. -/
theorem MobWorld.length_mobworld_dump_changed (w : MobWorld) (hc : w.changed = true) :
    (w.dump).1.length = (w.dump).2 := by
  rw [MobWorld.dump]
  rw [if_neg (by simp [hc])]
  by_cases hA : w.cellBlocks ≠ [] ∨ w.road.isSome ∨ w.worldCellBlock.isSome
  · rw [if_pos hA]
    have hkey := length_dumpBlocks_eq w.stamp 4 5 w.cellBlocks
    have hroad : (optDump w.road).length =
        (match w.road with | some rd => rd.getSize + hsize | none => 0) := by
      cases w.road with
      | none => simp [optDump]
      | some rd =>
        simp [optDump, SRec.length_srec_dump]
        omega
    have hwcb : (optCellDump w.worldCellBlock).length = optCellSize w.worldCellBlock := by
      cases w.worldCellBlock <;> simp [optCellDump, optCellSize, MobCell.length_mobcell_dump]
    simp only [List.length_append, length_packGrupN, SRec.length_srec_dump, hroad, hwcb]
    omega
  · rw [if_neg hA]
    simp [SRec.length_srec_dump]
    omega

/-- `MobWorlds.dump` on a changed, nonempty group whose world blocks are all
changed writes the patched total: header plus the block totals. -/
theorem MobWorlds.length_mobworlds_dump_changed (ws : MobWorlds) (hc : ws.changed = true)
    (hr : ws.worldBlocks ≠ []) (hall : ∀ b ∈ ws.worldBlocks, b.changed = true) :
    ws.dump.length = hsize + sumBy (fun w => (MobWorld.dump w).2) ws.worldBlocks := by
  rw [MobWorlds.dump]
  rw [if_neg (by simp [hc]), if_neg hr]
  simp only [List.length_append, length_packGrupN]
  rw [length_catMap_mem (fun w => (MobWorld.dump w).1) (fun w => (MobWorld.dump w).2)
    ws.worldBlocks (fun b hb => MobWorld.length_mobworld_dump_changed b (hall b hb))]

/-- `sumSizesE` fails with `AbstractError` as soon as any world block is
changed, because `MobWorld` inherits `MobBase.getSize`. -/
theorem sumSizesE_error {l : List MobWorld} (h : ∃ b ∈ l, b.changed = true) :
    sumSizesE l = .error "AbstractError" := by
  induction l with
  | nil => simp at h
  | cons w t ih =>
    by_cases hw : w.changed = true
    · simp [sumSizesE, MobWorld.getSizeE, hw]
    · obtain ⟨b, hb, hbc⟩ := h
      rcases List.mem_cons.1 hb with hb | hb
      · exact absurd (hb ▸ hbc) hw
      · have hrec := ih ⟨b, hb, hbc⟩
        simp [sumSizesE, MobWorld.getSizeE, hw, hrec]

theorem MobWorlds.getSizeE_error (ws : MobWorlds)
    (h : ∃ b ∈ ws.worldBlocks, b.changed = true) :
    ws.getSizeE = .error "AbstractError" := by
  simp [MobWorlds.getSizeE, sumSizesE_error h]

end Ser

namespace Mrg

/-- Long FormID: (owning master file name, local object id). -/
abbrev MFid := String × Nat

/-- A key of `id_records` / `mergeIds`: normally a FormID, but an editor id
string for eid-keyed records with the null FormID. -/
inductive Key where
  | fid : MFid → Key
  | eid : String → Key
  deriving DecidableEq

/-- Record collaborator at merge time (modelled from the spec: the record
classes live in the external `record_structs`; a record carries its long
FormID, editor id, the `isKeyedByEid` class flag, the ignore flag from
`flags1`, and the masters referenced by its remaining FormIDs.
`mergeFilter(loadSet)` drops references to masters outside `loadSet`;
`updateMasters` reports the record's own master plus the referenced ones). -/
structure MRec where
  fid : MFid
  eid : String
  isKeyedByEid : Bool
  ignored : Bool
  refMasters : List String
  deriving DecidableEq

def MRec.mergeFilter (loadSet : List String) (r : MRec) : MRec :=
  { r with refMasters := r.refMasters.filter (fun m => loadSet.contains m) }

def MRec.masters (r : MRec) : List String := r.fid.1 :: r.refMasters

/-- `getTypeCopy()` without a mapper: a copy with identical contents. -/
def MRec.getTypeCopy (r : MRec) : MRec := r

/-- `loadSet.issuperset(masters)`. -/
def supersetOf (loadSet ms : List String) : Bool := ms.all (fun m => loadSet.contains m)

/-- The hardcoded DarkPCB FormID `(GPath(u'Oblivion.esm'), 0xA31D)` skipped by
`MobObjects.merge_records` (line 316). -/
def bad_form : MFid := ("Oblivion.esm", 0xA31D)

/-- Association-list model of a Python dict: assignment conses at the front,
lookup returns the most recent binding. -/
def lookupKey : List (Key × MRec) → Key → Option MRec
  | [], _ => none
  | (k, v) :: t, key => if k = key then some v else lookupKey t key

/-- `MobObjects` merge-time state: the record list and the fid-or-eid index. -/
structure MobObjects where
  records : List MRec
  id_records : List (Key × MRec)
  deriving DecidableEq

/-- `MobObjects.indexRecords` (lines 263-267): clear, then key every record by
its FormID (the eid special rule lives only in `setRecord`). -/
def MobObjects.indexRecords (g : MobObjects) : MobObjects :=
  { g with id_records := g.records.foldl (fun m r => (Key.fid r.fid, r) :: m) [] }

/-- `MobObjects.getActiveRecords` (lines 214-216). -/
def MobObjects.getActiveRecords (g : MobObjects) : List MRec :=
  g.records.filter (fun r => !r.ignored)

/-- The key under which `setRecord` (lines 276-291) files a record: eid-keyed
records whose FormID is the game master with local id 0 use their editor id. -/
def recordKey (masterName : String) (record : MRec) : Key :=
  if record.isKeyedByEid ∧ record.fid = (masterName, 0) then Key.eid record.eid
  else Key.fid record.fid

/-- `self.records[self.records.index(oldRecord)] = record`. -/
def replaceFirst : List MRec → MRec → MRec → List MRec
  | [], _, _ => []
  | a :: t, old, new => if a = old then new :: t else a :: replaceFirst t old new

/-- `MobObjects.setRecord` (lines 276-291). -/
def MobObjects.setRecord (masterName : String) (g : MobObjects) (record : MRec) :
    MobObjects :=
  let g := if g.records ≠ [] ∧ g.id_records = [] then g.indexRecords else g
  let record_id := recordKey masterName record
  match lookupKey g.id_records record_id with
  | some oldRecord =>
    { records := replaceFirst g.records oldRecord record,
      id_records := (record_id, record) :: g.id_records }
  | none =>
    { records := g.records ++ [record],
      id_records := (record_id, record) :: g.id_records }

/-- `mergeIds.add` (a Python set). -/
def addKey (k : Key) (ids : List Key) : List Key := if k ∈ ids then ids else k :: ids

/-- Loop state of `MobObjects.merge_records`: the destination group, the
`filtered` survivor list and the `mergeIds` set. -/
structure MergeState where
  dest : MobObjects
  filtered : List MRec
  mergeIds : List Key
  deriving DecidableEq

/-- One iteration of the `MobObjects.merge_records` loop (lines 323-348). -/
def mergeStep (masterName : String) (loadSet : List String) (iiSkipMerge doFilter : Bool)
    (s : MergeState) (record : MRec) : MergeState :=
  let fid := record.fid
  if fid = bad_form then s
  else
    let record := if doFilter then record.mergeFilter loadSet else record
    if doFilter ∧ supersetOf loadSet record.masters = false then s
    else
      let filtered' := s.filtered ++ [record]
      if iiSkipMerge then { s with filtered := filtered' }
      else
        let mergeKey := if record.isKeyedByEid ∧ fid = (masterName, 0) then Key.eid record.eid
                        else Key.fid fid
        { dest := MobObjects.setRecord masterName s.dest record.getTypeCopy,
          filtered := filtered',
          mergeIds := addKey mergeKey s.mergeIds }

/-- `MobObjects.merge_records` (lines 312-353): returns the destination, the
rewritten source block and the updated `mergeIds`. -/
def MobObjects.merge_records (masterName : String) (self block : MobObjects)
    (loadSet : List String) (mergeIds : List Key) (iiSkipMerge doFilter : Bool) :
    MobObjects × MobObjects × List Key :=
  let s := (block.getActiveRecords).foldl (mergeStep masterName loadSet iiSkipMerge doFilter)
    ⟨self, [], mergeIds⟩
  (s.dest,
   MobObjects.indexRecords { records := s.filtered, id_records := block.id_records },
   s.mergeIds)

/-- `MobCell` merge-time state (lines 557-569): the cell record (absent in the
freshly created world-cell block of `MobWorld.merge_records`), the LAND/PGRD
singletons and the three reference lists. -/
structure MobCell where
  cell : Option MRec
  pgrd : Option MRec
  land : Option MRec
  persistent : List MRec
  temp : List MRec
  distant : List MRec
  deriving DecidableEq

/-- `x.cell.fid` for a cell block held in a `MobCells` container (the cell
record is always present there). -/
def MobCell.cellFid (cb : MobCell) : MFid :=
  match cb.cell with
  | some c => c.fid
  | none => ("", 0)

/-- `updateMasters` of a cell block: the masters used by every record it
owns. -/
def MobCell.blockMasters (cb : MobCell) : List String :=
  ((cb.cell.toList ++ cb.pgrd.toList ++ cb.land.toList) ++
    cb.persistent ++ cb.temp ++ cb.distant).flatMap MRec.masters

/-- The single-record arm of `MobCell.merge_records` (lines 794-817), applied
to one of `cell` / `pgrd` / `land`: returns the destination slot, the source
slot (cleared when merge-filtered out, otherwise holding the filtered record)
and `mergeIds`. -/
def mergeSingle (loadSet : List String) (iiSkipMerge doFilter : Bool)
    (dest src : Option MRec) (ids : List Key) :
    Except String (Option MRec × Option MRec × List Key) :=
  match src with
  | none => .ok (dest, none, ids)
  | some s =>
    if s.ignored then .ok (dest, some s, ids)
    else
      let s := if doFilter then s.mergeFilter loadSet else s
      if doFilter ∧ supersetOf loadSet s.masters = false then .ok (dest, none, ids)
      else if iiSkipMerge then .ok (dest, some s, ids)
      else
        match dest with
        | some d =>
          if d.fid ≠ s.fid then .error "ArgumentError"
          else .ok (some s.getTypeCopy, some s, addKey (Key.fid s.fid) ids)
        | none => .ok (some s.getTypeCopy, some s, addKey (Key.fid s.fid) ids)

/-- Positional lookup used for the fid → index dicts. -/
def lookupFid : List (MFid × Nat) → MFid → Option Nat
  | [], _ => none
  | (k, v) :: t, key => if k = key then some v else lookupFid t key

/-- The list arm of `MobCell.merge_records` (lines 818-850) for one of
`temp` / `persistent` / `distant`: FormID-keyed overwrite into the original
slots, appends for new records. -/
def mergeList (loadSet : List String) (iiSkipMerge doFilter : Bool)
    (destList srcList : List MRec) (ids : List Key) :
    List MRec × List MRec × List Key :=
  let id_fids := (destList.enum.map fun p => (p.2.fid, p.1))
  let step := fun (st : List MRec × List MRec × List Key) (src : MRec) =>
    let (dest, filtered, ids) := st
    if src.ignored then st
    else
      let src := if doFilter then src.mergeFilter loadSet else src
      if doFilter ∧ supersetOf loadSet src.masters = false then st
      else
        let filtered := filtered ++ [src]
        if iiSkipMerge then (dest, filtered, ids)
        else
          let rec_copy := src.getTypeCopy
          let ids := addKey (Key.fid src.fid) ids
          match lookupFid id_fids rec_copy.fid with
          | some i => (dest.set i rec_copy, filtered, ids)
          | none => (dest ++ [rec_copy], filtered, ids)
  srcList.foldl step (destList, [], ids)

/-- `MobCell.merge_records` (lines 790-850): the three singletons in source
order `cell`, `pgrd`, `land`, then the lists in source order `temp`,
`persistent`, `distant`. -/
def MobCell.merge_records (loadSet : List String) (iiSkipMerge doFilter : Bool)
    (self block : MobCell) (ids : List Key) :
    Except String (MobCell × MobCell × List Key) := do
  let (c, cs, ids) ← mergeSingle loadSet iiSkipMerge doFilter self.cell block.cell ids
  let (p, ps, ids) ← mergeSingle loadSet iiSkipMerge doFilter self.pgrd block.pgrd ids
  let (ld, lds, ids) ← mergeSingle loadSet iiSkipMerge doFilter self.land block.land ids
  let (t, ts, ids) := mergeList loadSet iiSkipMerge doFilter self.temp block.temp ids
  let (pe, pes, ids) := mergeList loadSet iiSkipMerge doFilter self.persistent block.persistent ids
  let (d, ds, ids) := mergeList loadSet iiSkipMerge doFilter self.distant block.distant ids
  return ({ cell := c, pgrd := p, land := ld, persistent := pe, temp := t, distant := d },
          { cell := cs, pgrd := ps, land := lds, persistent := pes, temp := ts, distant := ds },
          ids)

/-- `MobCells` merge-time state: the cell blocks and the `id_cellBlock` dict,
modelled as fid → index into `cellBlocks` (the Python dict holds aliases of
the list entries; an index expresses the same sharing with value semantics). -/
structure MobCells where
  cellBlocks : List MobCell
  id_cellBlock : List (MFid × Nat)
  deriving DecidableEq

/-- `MobCells.indexRecords` (lines 868-870). -/
def MobCells.indexRecords (g : MobCells) : MobCells :=
  { g with id_cellBlock := g.cellBlocks.enum.map fun p => (p.2.cellFid, p.1) }

/-- The freshly constructed empty cell block of `setCell` /
`MobWorld.merge_records`. -/
def emptyCellBlock : MobCell := ⟨none, none, none, [], [], []⟩

/-- `MobCells.setCell` (lines 872-884). -/
def MobCells.setCell (self : MobCells) (cell : MRec) : MobCells :=
  let self := if self.cellBlocks ≠ [] ∧ self.id_cellBlock = [] then self.indexRecords else self
  match lookupFid self.id_cellBlock cell.fid with
  | some i =>
    let old := self.cellBlocks.getD i emptyCellBlock
    { self with cellBlocks := self.cellBlocks.set i { old with cell := some cell } }
  | none =>
    { cellBlocks := self.cellBlocks ++ [{ emptyCellBlock with cell := some cell }],
      id_cellBlock := self.id_cellBlock ++ [(cell.fid, self.cellBlocks.length)] }

/-- Python's `list.remove` equality test between a `MobCell` wrapper held in
`cellBlocks` and a cell *record*: objects of unrelated classes compare by
identity and are never equal, so this is constantly false. -/
def pyEqCellBlockRec (_ : MobCell) (_ : Option MRec) : Bool := false

/-- `MobCells.remove_cell` (lines 886-892): `self.cellBlocks.remove(cell)` is
handed the cell *record*, which never equals any `MobCell` wrapper in the
list, so `list.remove` raises `ValueError` before the dict entry is deleted. -/
def MobCells.remove_cell (self : MobCells) (cell : Option MRec) : Except String MobCells :=
  let self := if self.cellBlocks ≠ [] ∧ self.id_cellBlock = [] then self.indexRecords else self
  match self.cellBlocks.findIdx? (fun b => pyEqCellBlockRec b cell) with
  | some i =>
    .ok { cellBlocks := self.cellBlocks.eraseIdx i,
          id_cellBlock := self.id_cellBlock.filter (fun p =>
            !(p.1 = (match cell with | some c => c.fid | none => ("", 0)))) }
  | none => .error "ValueError: list.remove(x): x not in list"

/-- One iteration of the `MobCells.merge_records` loop (lines 978-1010). -/
def cellsMergeStep (loadSet : List String) (iiSkipMerge doFilter : Bool)
    (st : MobCells × List MobCell × List Key) (src : MobCell) :
    Except String (MobCells × List MobCell × List Key) := do
  let (self, filtered, ids) := st
  let src_fid := src.cellFid
  let (self, idx, was_newly_added) ←
    match lookupFid self.id_cellBlock src_fid with
    | some i => pure (self, i, false)
    | none =>
      match src.cell with
      | none => Except.error "AttributeError"
      | some c =>
        let self := self.setCell c
        match lookupFid self.id_cellBlock src_fid with
        | some i => pure (self, i, true)
        | none => Except.error "AttributeError"
  let dest := self.cellBlocks.getD idx emptyCellBlock
  let (dest', src', ids') ← MobCell.merge_records loadSet iiSkipMerge doFilter dest src ids
  let self := { self with cellBlocks := self.cellBlocks.set idx dest' }
  if iiSkipMerge then
    if was_newly_added then
      let self ← self.remove_cell dest'.cell
      pure (self, filtered, ids')
    else pure (self, filtered, ids')
  else
    if doFilter ∧ supersetOf loadSet src'.blockMasters = false then
      if was_newly_added then
        let self ← self.remove_cell dest'.cell
        pure (self, filtered, ids')
      else pure (self, filtered, ids')
    else
      pure (self, filtered ++ [src'], ids')

/-- `MobCells.merge_records` (lines 970-1013). -/
def MobCells.merge_records (loadSet : List String) (iiSkipMerge doFilter : Bool)
    (self block : MobCells) (mergeIds : List Key) :
    Except String (MobCells × MobCells × List Key) := do
  let self := if self.cellBlocks ≠ [] ∧ self.id_cellBlock = [] then self.indexRecords else self
  let (self', filtered, ids') ←
    block.cellBlocks.foldlM (cellsMergeStep loadSet iiSkipMerge doFilter) (self, [], mergeIds)
  return (self',
    MobCells.indexRecords { cellBlocks := filtered, id_cellBlock := block.id_cellBlock },
    ids')

end Mrg

namespace Load

/-- Record signatures at load time. -/
abbrev Sig := String

/-- One header the reader hands to `MobCell.load_rec_group`: a sub-group
header (`GRUP` with its group type) or a record header together with an
opaque id for the record it introduces.  The loader never tracks sub-group
extents — it reads headers linearly until the end of the region, exactly as
the token list is consumed here. -/
inductive CTok where
  | grup : Nat → CTok
  | recH : Sig → Nat → CTok
  deriving DecidableEq

structure CellLoadState where
  persistent : List Nat
  temp : List Nat
  distant : List Nat
  land : Option Nat
  pgrd : Option Nat
  groupType : Option Nat
  deriving DecidableEq

/-- `loadFactory.getCellTypeClass()`: the signatures legal in cell children
groups (`known`, the dict's keys) and those with a loadable record class
(`loaded`, the keys with a non-None class). -/
structure CellFactory where
  known : List Sig
  loaded : List Sig
  deriving DecidableEq

/-- One iteration of the `MobCell.load_rec_group` loop (lines 582-613).  Note
that the source initializes `subgroupLoaded = [False, False, False]` *inside*
the `while` loop (line 583), so the duplicate-sub-group test at line 593
always sees fresh `False` flags. -/
def cellLoadStep (fac : CellFactory) (st : CellLoadState) (tok : CTok) :
    Except String CellLoadState :=
  let subgroupLoaded := (false, false, false)
  match tok with
  | .grup groupType =>
    if groupType ≠ 8 ∧ groupType ≠ 9 ∧ groupType ≠ 10 then
      .error "ModError: Unexpected subgroup in cell children group"
    else if (match groupType with
             | 8 => subgroupLoaded.1
             | 9 => subgroupLoaded.2.1
             | _ => subgroupLoaded.2.2) then
      .error "ModError: Extra subgroup in cell children group"
    else .ok { st with groupType := some groupType }
  | .recH recType r =>
    if ¬fac.known.contains recType then
      .error "ModError: Unexpected record in cell children group"
    else if ¬fac.loaded.contains recType then
      .ok st
    else if recType = "REFR" ∨ recType = "ACHR" ∨ recType = "ACRE" then
      match st.groupType with
      | some 8 => .ok { st with persistent := st.persistent ++ [r] }
      | some 9 => .ok { st with temp := st.temp ++ [r] }
      | some 10 => .ok { st with distant := st.distant ++ [r] }
      | some _ => .ok st
      | none => .error "NameError: groupType referenced before assignment"
    else if recType = "LAND" then .ok { st with land := some r }
    else if recType = "PGRD" then .ok { st with pgrd := some r }
    else .ok st

/-- `MobCell.load_rec_group` (lines 571-614) over a region's header stream. -/
def cellLoad (fac : CellFactory) (toks : List CTok) : Except String CellLoadState :=
  toks.foldlM (cellLoadStep fac) ⟨[], [], [], none, none, none⟩

/-- The cell-children record classes of the Oblivion load factory, all
loadable. -/
def oblivionCellFactory : CellFactory :=
  { known := ["REFR", "ACHR", "ACRE", "PGRD", "LAND"],
    loaded := ["REFR", "ACHR", "ACRE", "PGRD", "LAND"] }

/-- One header the reader hands to `MobWorlds.load_rec_group`: a WRLD record
(with its fid), a `GRUP` header (group type and label), or any other record. -/
inductive WTok where
  | wrld : Nat → WTok
  | grup : Nat → Nat → WTok
  | recH : Sig → WTok
  deriving DecidableEq

structure WorldsLoadState where
  worldBlocks : List (Nat × Bool)
  world : Option Nat
  prevWasWrld : Bool
  worlds : List Nat
  orphansSkipped : Nat
  deriving DecidableEq

/-- One iteration of the `MobWorlds.load_rec_group` loop (lines 1431-1471).
`worldBlocks` entries record the world fid and whether a children group was
consumed for it.  The `world` slot is the WRLD record still awaiting its
children group; `worlds` is the Fallout-only fid map. -/
def worldsLoadStep (isFallout : Bool) (st : WorldsLoadState) (tok : WTok) :
    Except String WorldsLoadState :=
  match tok with
  | .wrld f =>
    let st := if st.prevWasWrld then
        { st with worldBlocks := st.worldBlocks ++ [(st.world.getD 0, false)] }
      else st
    .ok { st with world := some f,
                  worlds := if isFallout then st.worlds ++ [f] else st.worlds,
                  prevWasWrld := true }
  | .grup groupType lbl =>
    if groupType ≠ 1 then .error "ModError: Unexpected subgroup in CELL group"
    else
      let st := { st with prevWasWrld := false }
      let world := if isFallout then
          (if st.worlds.contains lbl then some lbl else none)
        else st.world
      match world with
      | none =>
        .ok { st with world := none, orphansSkipped := st.orphansSkipped + 1 }
      | some wf =>
        if lbl ≠ wf then .error "ModError: WRLD subgroup does not match WRLD"
        else .ok { st with world := none, worldBlocks := st.worldBlocks ++ [(wf, true)] }
  | .recH _ => .error "ModError: Unexpected record in WRLD group"

/-- `MobWorlds.load_rec_group` (lines 1415-1474), including the final
flush of a trailing WRLD without children (lines 1472-1474). -/
def worldsLoad (isFallout : Bool) (toks : List WTok) : Except String WorldsLoadState := do
  let st ← toks.foldlM (worldsLoadStep isFallout) ⟨[], none, false, [], 0⟩
  match st.world with
  | some wf => return { st with worldBlocks := st.worldBlocks ++ [(wf, false)], world := none }
  | none => return st

end Load

/-! ## Claim theorems -/

/-- C9: for every changed `MobObjects` whose record list is empty, and every
changed `MobWorlds` with no world blocks, `dump` writes zero bytes — not even
the group's own header — so an emptied, mutated top-level group disappears
entirely from the serialized output. -/
theorem c9_empty_changed_groups_dump_nothing
    (g : Ser.MobObjects) (hg : g.changed = true) (hgr : g.records = [])
    (ws : Ser.MobWorlds) (hw : ws.changed = true) (hwr : ws.worldBlocks = []) :
    g.dump = [] ∧ ws.dump = [] := by
  constructor
  · simp [Ser.MobObjects.dump, Ser.MobObjects.getSize, hg, hgr]
  · simp [Ser.MobWorlds.dump, hw, hwr]

/-- Witness for C9 at a concrete empty changed object group and world group. -/
theorem c9_witness :
    Ser.MobObjects.dump ⟨40, 0, 0, true, [], []⟩ = [] ∧
      Ser.MobWorlds.dump ⟨40, 0, 0, 0, true, [], []⟩ = [] :=
  c9_empty_changed_groups_dump_nothing ⟨40, 0, 0, true, [], []⟩ rfl rfl
    ⟨40, 0, 0, 0, true, [], []⟩ rfl rfl

/-- C10: in every cell block, the PGRD and LAND singletons are serialized
inside the temporary-children sub-group in the fixed order pgrd, land, then
the temporary reference records; the temporary group's size accounts for
them, and the temporary sub-group header is emitted whenever any of temp,
pgrd or land is present. -/
theorem c10_temp_group_layout (c : Ser.MobCell)
    (h : c.temp ≠ [] ∨ c.pgrd.isSome ∨ c.land.isSome) :
    c.dump = c.cell.dump ++
      (c.groupHeader c.getChildrenSize 6 ++
        (if c.persistent ≠ [] then
           c.groupHeader c.getPersistentSize 8 ++ catMap Ser.SRec.dump c.persistent
         else []) ++
        (c.groupHeader c.getTempSize 9 ++ Ser.optDump c.pgrd ++ Ser.optDump c.land ++
          catMap Ser.SRec.dump c.temp) ++
        (if c.distant ≠ [] then
           c.groupHeader c.getDistantSize 10 ++ catMap Ser.SRec.dump c.distant
         else [])) ∧
    c.getTempSize = hsize + Ser.optSize c.pgrd + Ser.optSize c.land +
      sumBy (fun x => hsize + x.getSize) c.temp := by
  have hne := Ser.MobCell.temp_present_ne_zero c h
  have hT : c.getTempSize ≠ 0 := by
    simp only [Ser.MobCell.getTempSize]
    rw [if_pos hne]
    omega
  have hch : c.getChildrenSize ≠ 0 := by
    simp only [Ser.MobCell.getChildrenSize]
    have hx : c.getPersistentSize + c.getTempSize + c.getDistantSize ≠ 0 := by omega
    rw [if_pos hx]
    omega
  constructor
  · rw [Ser.MobCell.dump, if_neg hch, if_pos h]
  · simp only [Ser.MobCell.getTempSize]
    rw [if_pos hne]
    omega

/-- A concrete cell block with one temporary reference and a PGRD singleton. -/
def c10cell : Ser.MobCell :=
  { stamp := 5,
    cell := ⟨⟨0x43454C4C, 0, 0x1000, 0, [1, 2]⟩, true, none, none⟩,
    persistent := [], temp := [⟨0x52454652, 0, 0x1001, 0, [3]⟩], distant := [],
    land := none, pgrd := some ⟨0x50475244, 0, 0x1002, 0, [4, 5]⟩ }

/-- Witness for C10 at `c10cell`. -/
theorem c10_witness :
    c10cell.dump = c10cell.cell.dump ++
      (c10cell.groupHeader c10cell.getChildrenSize 6 ++
        (if c10cell.persistent ≠ [] then
           c10cell.groupHeader c10cell.getPersistentSize 8 ++
             catMap Ser.SRec.dump c10cell.persistent
         else []) ++
        (c10cell.groupHeader c10cell.getTempSize 9 ++ Ser.optDump c10cell.pgrd ++
          Ser.optDump c10cell.land ++ catMap Ser.SRec.dump c10cell.temp) ++
        (if c10cell.distant ≠ [] then
           c10cell.groupHeader c10cell.getDistantSize 10 ++
             catMap Ser.SRec.dump c10cell.distant
         else [])) ∧
    c10cell.getTempSize = hsize + Ser.optSize c10cell.pgrd + Ser.optSize c10cell.land +
      sumBy (fun x => hsize + x.getSize) c10cell.temp :=
  c10_temp_group_layout c10cell (by decide)

/-- An exterior cell at grid position `(x, y) = (32, 0)` (`posX = 32`,
`posY = 0`). -/
def c5cell : Ser.MobCell :=
  { stamp := 0, cell := ⟨⟨0, 0, 0, 0, []⟩, false, some 32, some 0⟩,
    persistent := [], temp := [], distant := [], land := none, pgrd := none }

/-- C5 counterexample: the claim says the block component of the bucket key of
an exterior cell at grid position `(x, y)` is `(floor(x/32), floor(y/32))`;
for `(32, 0)` that would be `(1, 0)`, but `getBsb` binds
`x, y = cell.posY, cell.posX` and returns `(0, 1)`. -/
theorem c5_counterexample :
    (Ser.MobCell.getBsb c5cell).1 = Ser.BSide.ext 0 1 ∧
      Ser.BSide.ext 0 1 ≠
        Ser.BSide.ext ((32 : Int).fdiv 32) ((0 : Int).fdiv 32) := by
  constructor
  · rfl
  · decide

/-- C5 (amended): the bucket key is a deterministic function of the cell's
coordinates — equal grid positions give equal keys for exterior cells, and
equal FormIDs give equal keys for interior cells — but for an exterior cell at
grid position `(x, y)` the block component is `(floor(y/32), floor(x/32))`,
i.e. y-major, not `(floor(x/32), floor(y/32))`. -/
theorem c5_amended :
    (∀ c1 c2 : Ser.MobCell, c1.cell.isInterior = false → c2.cell.isInterior = false →
      c1.cell.posX = c2.cell.posX → c1.cell.posY = c2.cell.posY →
      c1.getBsb = c2.getBsb) ∧
    (∀ c1 c2 : Ser.MobCell, c1.cell.isInterior = true → c2.cell.isInterior = true →
      c1.cell.r.fid = c2.cell.r.fid → c1.getBsb = c2.getBsb) ∧
    (∀ c : Ser.MobCell, c.cell.isInterior = false →
      (c.getBsb).1 = Ser.BSide.ext ((c.cell.posY.getD 0).fdiv 32)
        ((c.cell.posX.getD 0).fdiv 32)) := by
  refine ⟨?_, ?_, ?_⟩
  · intro c1 c2 h1 h2 hx hy
    simp [Ser.MobCell.getBsb, h1, h2, hx, hy]
  · intro c1 c2 h1 h2 hf
    simp [Ser.MobCell.getBsb, Ser.CellRec.fid, h1, h2, hf]
  · intro c h
    simp [Ser.MobCell.getBsb, h]

/-- Witness for C5 (amended) at two concrete exterior cells on the same grid
square and one interior cell. -/
theorem c5_witness :
    Ser.MobCell.getBsb
        ⟨0, ⟨⟨0, 0, 1, 0, []⟩, false, some 40, some (-9)⟩, [], [], [], none, none⟩ =
      Ser.MobCell.getBsb
        ⟨7, ⟨⟨0, 0, 2, 0, []⟩, false, some 40, some (-9)⟩, [], [], [], none, some ⟨0, 0, 3, 0, []⟩⟩ ∧
    (Ser.MobCell.getBsb
        ⟨0, ⟨⟨0, 0, 0x123456, 0, []⟩, false, some 40, some (-9)⟩, [], [], [], none, none⟩).1 =
      Ser.BSide.ext (((-9 : Int)).fdiv 32) ((40 : Int).fdiv 32) :=
  ⟨c5_amended.1 _ _ rfl rfl rfl rfl,
   c5_amended.2.2 ⟨0, ⟨⟨0, 0, 0x123456, 0, []⟩, false, some 40, some (-9)⟩, [], [], [], none, none⟩ rfl⟩

/-- C6: the spec says loading a cell-children group raises a fatal format
error when a sub-group type that must appear at most once (8/9/10) appears a
second time; the loader's `subgroupLoaded = [False, False, False]` is
re-initialized on every loop iteration (line 583), so the duplicate check at
line 593 can never fire and a second persistent sub-group loads without
error, with both sub-groups' references merged into the same bucket. -/
theorem c6_duplicate_subgroup_not_detected :
    Load.cellLoad Load.oblivionCellFactory
      [.grup 8, .recH "REFR" 1, .grup 8, .recH "REFR" 2] =
      .ok ⟨[1, 2], [], [], none, none, some 8⟩ := by
  rfl

/-- C7 counterexample: a children group whose label names no WRLD seen so far
is *not* always tolerated: when it directly follows a not-yet-consumed WRLD
record with a different FormID, `load_rec_group` raises a ModError instead of
skipping it (line 1460). -/
theorem c7_counterexample :
    Load.worldsLoad false [.wrld 1, .grup 1 255] =
      .error "ModError: WRLD subgroup does not match WRLD" := by
  rfl

/-- C7 (amended): a children group with no pending WRLD record is skipped and
counted rather than failing: a stream holding exactly one such orphan group
loads successfully with `orphansSkipped = 1`, and in general any step that
sees a type-1 group while no WRLD is pending just increments the counter.
When a WRLD *is* pending and the group's label differs, load fails with a
ModError instead. -/
theorem c7_orphan_skipped :
    Load.worldsLoad false [.grup 1 255] = .ok ⟨[], none, false, [], 1⟩ ∧
    (∀ st : Load.WorldsLoadState, ∀ lbl : Nat, st.world = none →
      Load.worldsLoadStep false st (.grup 1 lbl) =
        .ok { st with prevWasWrld := false,
                      orphansSkipped := st.orphansSkipped + 1 }) := by
  constructor
  · rfl
  · intro st lbl hw
    obtain ⟨wb, w, pw, ws, os⟩ := st
    have hw2 : w = none := hw
    subst hw2
    rfl

/-- Witness for C7 (amended) at a concrete mid-load state. -/
theorem c7_witness :
    Load.worldsLoadStep false ⟨[(3, true)], none, false, [], 4⟩ (.grup 1 255) =
      .ok ⟨[(3, true)], none, false, [], 5⟩ :=
  c7_orphan_skipped.2 ⟨[(3, true)], none, false, [], 4⟩ 255 rfl

/-- C2 counterexample: a well-formed but empty group region (a bare 20-byte
GRUP header with no contents) loaded without unpacking does *not* round-trip:
`MobBase.dump` checks `numRecords > 0` and writes nothing at all for it. -/
theorem c2_counterexample :
    Ser.MobBase.dumpE (Ser.MobBase.ofRegion 0 0 0 []) = .ok [] ∧
      Ser.baseRegion 0 0 0 [] ≠ [] := by
  constructor
  · rfl
  · decide

/-- C2 (amended): for a *nonempty* well-formed region loaded into a container
that is never mutated, `dump` re-emits the original header followed by the
stored raw bytes, byte-for-byte identical to the input region; for
`MobObjects` (a top group, group type 0) the identity holds even for an
empty region.  An empty region loaded into `MobBase` dumps nothing. -/
theorem c2_roundtrip_unchanged :
    (∀ lbl gt st : Nat, ∀ body : List Nat, body ≠ [] →
      Ser.MobBase.dumpE (Ser.MobBase.ofRegion lbl gt st body) =
        .ok (Ser.baseRegion lbl gt st body)) ∧
    (∀ lbl st : Nat, ∀ body : List Nat,
      Ser.MobObjects.dump (Ser.MobObjects.ofRegion lbl st body) =
        Ser.topRegion lbl st body) := by
  constructor
  · intro lbl gt st body hbody
    rw [Ser.MobBase.dumpE]
    rw [if_neg (by simp [Ser.MobBase.ofRegion])]
    rw [if_pos]
    · rfl
    · simp [Ser.MobBase.numRecords, Ser.MobBase.ofRegion, hbody]
  · intro lbl st body
    rfl

/-- Witness for C2 (amended) at a concrete 23-byte region. -/
theorem c2_witness :
    Ser.MobBase.dumpE (Ser.MobBase.ofRegion 3 0 7 [1, 2, 3]) =
      .ok (Ser.baseRegion 3 0 7 [1, 2, 3]) :=
  c2_roundtrip_unchanged.1 3 0 7 [1, 2, 3] (by decide)

theorem mem_addKey {k k' : Mrg.Key} {ids : List Mrg.Key} (h : k ∈ Mrg.addKey k' ids) :
    k = k' ∨ k ∈ ids := by
  by_cases hmem : k' ∈ ids
  · rw [Mrg.addKey, if_pos hmem] at h
    exact Or.inr h
  · rw [Mrg.addKey, if_neg hmem] at h
    exact List.mem_cons.1 h

theorem mem_replaceFirst {a old new : Mrg.MRec} :
    ∀ {l : List Mrg.MRec}, a ∈ Mrg.replaceFirst l old new → a = new ∨ a ∈ l
  | [], h => by simp [Mrg.replaceFirst] at h
  | b :: t, h => by
    rw [Mrg.replaceFirst] at h
    by_cases hb : b = old
    · rw [if_pos hb] at h
      rcases List.mem_cons.1 h with h | h
      · exact Or.inl h
      · exact Or.inr (List.mem_cons_of_mem _ h)
    · rw [if_neg hb] at h
      rcases List.mem_cons.1 h with h | h
      · exact Or.inr (h ▸ List.mem_cons_self _ _)
      · rcases mem_replaceFirst h with h | h
        · exact Or.inl h
        · exact Or.inr (List.mem_cons_of_mem _ h)

theorem records_indexRecords (g : Mrg.MobObjects) :
    (g.indexRecords).records = g.records := rfl

theorem mem_setRecord {r' : Mrg.MRec} (mn : String) (g : Mrg.MobObjects) (rec : Mrg.MRec)
    (h : r' ∈ (Mrg.MobObjects.setRecord mn g rec).records) : r' = rec ∨ r' ∈ g.records := by
  simp only [Mrg.MobObjects.setRecord] at h
  by_cases hc : g.records ≠ [] ∧ g.id_records = []
  · rw [if_pos hc] at h
    cases hm : Mrg.lookupKey (g.indexRecords).id_records (Mrg.recordKey mn rec) with
    | some old =>
      rw [hm] at h
      rcases mem_replaceFirst h with h | h
      · exact Or.inl h
      · exact Or.inr h
    | none =>
      rw [hm] at h
      rcases List.mem_append.1 h with h | h
      · exact Or.inr h
      · exact Or.inl (by simpa using h)
  · rw [if_neg hc] at h
    cases hm : Mrg.lookupKey g.id_records (Mrg.recordKey mn rec) with
    | some old =>
      rw [hm] at h
      rcases mem_replaceFirst h with h | h
      · exact Or.inl h
      · exact Or.inr h
    | none =>
      rw [hm] at h
      rcases List.mem_append.1 h with h | h
      · exact Or.inr h
      · exact Or.inl (by simpa using h)

theorem mergeStep_bad_inv (mn : String) (ls : List String) (ii df : Bool)
    (s : Mrg.MergeState) (a : Mrg.MRec) :
    (∀ r ∈ (Mrg.mergeStep mn ls ii df s a).filtered, r.fid = Mrg.bad_form →
      r ∈ s.filtered) ∧
    (Mrg.Key.fid Mrg.bad_form ∈ (Mrg.mergeStep mn ls ii df s a).mergeIds →
      Mrg.Key.fid Mrg.bad_form ∈ s.mergeIds) ∧
    (∀ r ∈ (Mrg.mergeStep mn ls ii df s a).dest.records, r.fid = Mrg.bad_form →
      r ∈ s.dest.records) := by
  by_cases hbad : a.fid = Mrg.bad_form
  · rw [Mrg.mergeStep, if_pos hbad]
    exact ⟨fun r hr _ => hr, fun h => h, fun r hr _ => hr⟩
  · rw [Mrg.mergeStep, if_neg hbad]
    have hfid : (if df = true then a.mergeFilter ls else a).fid = a.fid := by
      by_cases hdf : df = true
      · rw [if_pos hdf]; rfl
      · rw [if_neg hdf]
    by_cases hskip : df = true ∧
        Mrg.supersetOf ls (if df = true then a.mergeFilter ls else a).masters = false
    · rw [if_pos hskip]
      exact ⟨fun r hr _ => hr, fun h => h, fun r hr _ => hr⟩
    · rw [if_neg hskip]
      by_cases hii : ii = true
      · rw [if_pos hii]
        refine ⟨?_, fun h => h, fun r hr _ => hr⟩
        intro r hr hb
        rcases List.mem_append.1 hr with hr | hr
        · exact hr
        · have heq : r = (if df = true then a.mergeFilter ls else a) := by simpa using hr
          rw [heq, hfid] at hb
          exact absurd hb hbad
      · rw [if_neg hii]
        refine ⟨?_, ?_, ?_⟩
        · intro r hr hb
          rcases List.mem_append.1 hr with hr | hr
          · exact hr
          · have heq : r = (if df = true then a.mergeFilter ls else a) := by simpa using hr
            rw [heq, hfid] at hb
            exact absurd hb hbad
        · intro h
          rcases mem_addKey h with h | h
          · by_cases he : (if df = true then a.mergeFilter ls else a).isKeyedByEid = true ∧
                a.fid = (mn, 0)
            · rw [if_pos he] at h
              exact absurd h (by simp)
            · rw [if_neg he] at h
              have : Mrg.bad_form = a.fid := by
                have := Mrg.Key.fid.inj h
                exact this
              exact absurd this.symm hbad
          · exact h
        · intro r hr hb
          rcases mem_setRecord mn s.dest _ hr with h | h
          · have : r.fid = a.fid := by
              rw [h]
              exact hfid
            rw [this] at hb
            exact absurd hb hbad
          · exact h

theorem mergeFold_bad_inv (mn : String) (ls : List String) (ii df : Bool) :
    ∀ (l : List Mrg.MRec) (s : Mrg.MergeState),
    (∀ r ∈ (l.foldl (Mrg.mergeStep mn ls ii df) s).filtered, r.fid = Mrg.bad_form →
      r ∈ s.filtered) ∧
    (Mrg.Key.fid Mrg.bad_form ∈ (l.foldl (Mrg.mergeStep mn ls ii df) s).mergeIds →
      Mrg.Key.fid Mrg.bad_form ∈ s.mergeIds) ∧
    (∀ r ∈ (l.foldl (Mrg.mergeStep mn ls ii df) s).dest.records, r.fid = Mrg.bad_form →
      r ∈ s.dest.records)
  | [], s => ⟨fun _ h _ => h, fun h => h, fun _ h _ => h⟩
  | a :: t, s => by
    have hstep := mergeStep_bad_inv mn ls ii df s a
    have hrest := mergeFold_bad_inv mn ls ii df t (Mrg.mergeStep mn ls ii df s a)
    rw [List.foldl_cons]
    exact ⟨fun r hr hb => hstep.1 r (hrest.1 r hr hb) hb,
           fun h => hstep.2.1 (hrest.2.1 h),
           fun r hr hb => hstep.2.2 r (hrest.2.2 r hr hb) hb⟩

/-- C8: for every call to `MobObjects.merge_records`, regardless of `doFilter`
and `iiSkipMerge`, a source record whose FormID is the DarkPCB record
`(Oblivion.esm, 0xA31D)` is unconditionally skipped: it never appears in the
rewritten source block, its FormID is never added to `mergeIds`, and no such
record is copied into the destination group. -/
theorem c8_darkpcb_skipped (mn : String) (self block : Mrg.MobObjects)
    (ls : List String) (ids : List Mrg.Key) (ii df : Bool) :
    (∀ r ∈ (Mrg.MobObjects.merge_records mn self block ls ids ii df).2.1.records,
       r.fid ≠ Mrg.bad_form) ∧
    (Mrg.Key.fid Mrg.bad_form ∉ ids →
       Mrg.Key.fid Mrg.bad_form ∉
         (Mrg.MobObjects.merge_records mn self block ls ids ii df).2.2) ∧
    (∀ r ∈ (Mrg.MobObjects.merge_records mn self block ls ids ii df).1.records,
       r.fid = Mrg.bad_form → r ∈ self.records) := by
  have hinv := mergeFold_bad_inv mn ls ii df block.getActiveRecords ⟨self, [], ids⟩
  refine ⟨?_, ?_, ?_⟩
  · intro r hr hb
    have hr' : r ∈ (block.getActiveRecords.foldl (Mrg.mergeStep mn ls ii df)
        ⟨self, [], ids⟩).filtered := hr
    have : r ∈ ([] : List Mrg.MRec) := hinv.1 r hr' hb
    simp at this
  · intro hni h
    exact hni (hinv.2.1 h)
  · intro r hr hb
    exact hinv.2.2 r hr hb

/-- The DarkPCB record and an ordinary record in a source group. -/
def darkRec : Mrg.MRec :=
  { fid := Mrg.bad_form, eid := "DarkPCB", isKeyedByEid := false, ignored := false,
    refMasters := [] }

def c8src : Mrg.MobObjects :=
  { records := [darkRec,
      { fid := ("Oblivion.esm", 1), eid := "Other", isKeyedByEid := false,
        ignored := false, refMasters := [] }],
    id_records := [] }

def c8dest : Mrg.MobObjects := { records := [], id_records := [] }

/-- Witness for C8: merging `c8src` into an empty group records nothing for
the DarkPCB FormID. -/
theorem c8_witness :
    Mrg.Key.fid Mrg.bad_form ∉
      (Mrg.MobObjects.merge_records "Oblivion.esm" c8dest c8src ["Oblivion.esm"]
        [] false false).2.2 :=
  (c8_darkpcb_skipped "Oblivion.esm" c8dest c8src ["Oblivion.esm"] [] false false).2.1
    (by decide)

theorem lookup_append (k : Mrg.Key) :
    ∀ xs ys : List (Mrg.Key × Mrg.MRec),
    Mrg.lookupKey (xs ++ ys) k =
      (match Mrg.lookupKey xs k with
       | some v => some v
       | none => Mrg.lookupKey ys k)
  | [], ys => rfl
  | (k1, v1) :: t, ys => by
    by_cases hk : k1 = k
    · simp [Mrg.lookupKey, hk]
    · simp only [List.cons_append, Mrg.lookupKey, if_neg hk]
      exact lookup_append k t ys

theorem lookup_none_of_not_mem (k : Mrg.Key) :
    ∀ xs : List (Mrg.Key × Mrg.MRec), k ∉ xs.map Prod.fst → Mrg.lookupKey xs k = none
  | [], _ => rfl
  | (k1, v1) :: t, h => by
    have hk : ¬k1 = k := by
      intro he
      exact h (by simp [he])
    rw [Mrg.lookupKey, if_neg hk]
    exact lookup_none_of_not_mem k t (fun hm => h (by simp [hm]))

theorem foldl_index_eq (l : List Mrg.MRec) :
    ∀ init : List (Mrg.Key × Mrg.MRec),
    l.foldl (fun m r => (Mrg.Key.fid r.fid, r) :: m) init =
      ((l.map fun r => (Mrg.Key.fid r.fid, r)).reverse) ++ init := by
  induction l with
  | nil => intro init; simp
  | cons a t ih =>
    intro init
    rw [List.foldl_cons, ih, List.map_cons, List.reverse_cons, List.append_assoc]
    rfl

theorem lookup_rev_map :
    ∀ l : List Mrg.MRec, (l.map Mrg.MRec.fid).Nodup →
    ∀ r ∈ l, Mrg.lookupKey ((l.map fun x => (Mrg.Key.fid x.fid, x)).reverse)
      (Mrg.Key.fid r.fid) = some r
  | [], _, r, hr => absurd hr (by simp)
  | a :: t, hn, r, hr => by
    have hn2 : (a.fid ∉ t.map Mrg.MRec.fid) ∧ (t.map Mrg.MRec.fid).Nodup := by
      rw [List.map_cons] at hn
      exact List.nodup_cons.1 hn
    rw [List.map_cons, List.reverse_cons, lookup_append]
    rcases List.mem_cons.1 hr with hr | hr
    · subst hr
      have hnone : Mrg.lookupKey ((t.map fun x => (Mrg.Key.fid x.fid, x)).reverse)
          (Mrg.Key.fid r.fid) = none := by
        apply lookup_none_of_not_mem
        intro hm
        rw [List.map_reverse, List.mem_reverse, List.map_map] at hm
        obtain ⟨b, hb, hbe⟩ := List.mem_map.1 hm
        have : b.fid = r.fid := Mrg.Key.fid.inj hbe
        exact hn2.1 (this ▸ List.mem_map_of_mem Mrg.MRec.fid hb)
      rw [hnone]
      simp [Mrg.lookupKey]
    · rw [lookup_rev_map t hn2.2 r hr]

/-- A record "keyed by editor id" whose FormID is the game master with local
id 0 — under the claim, `indexRecords` should file it under its editor id. -/
def eidRec : Mrg.MRec :=
  { fid := ("Oblivion.esm", 0), eid := "FOO", isKeyedByEid := true, ignored := false,
    refMasters := [] }

def c4group : Mrg.MobObjects := { records := [eidRec], id_records := [] }

/-- C4 counterexample: `indexRecords` (lines 263-267) keys *every* record by
its FormID — the editor-id rule lives only in `setRecord` — so after
`indexRecords()` looking up the editor id of an eid-keyed null-fid record
finds nothing, where the claim requires it to return the record. -/
theorem c4_counterexample :
    eidRec ∈ c4group.records ∧ eidRec.isKeyedByEid = true ∧
      eidRec.fid = ("Oblivion.esm", 0) ∧
      Mrg.lookupKey (c4group.indexRecords).id_records (Mrg.Key.eid eidRec.eid) = none := by
  refine ⟨by simp [c4group], rfl, rfl, rfl⟩

/-- C4 (amended): after `indexRecords()`, looking up the FormID of any record
of a group whose records carry pairwise distinct FormIDs returns that record;
the editor-id exception of `setRecord` does not apply to `indexRecords`,
which keys every record — eid-keyed or not — by its FormID. -/
theorem c4_index_lookup (g : Mrg.MobObjects)
    (hn : (g.records.map Mrg.MRec.fid).Nodup) :
    ∀ r ∈ g.records,
      Mrg.lookupKey (g.indexRecords).id_records (Mrg.Key.fid r.fid) = some r := by
  intro r hr
  have hid : (g.indexRecords).id_records =
      ((g.records.map fun x => (Mrg.Key.fid x.fid, x)).reverse) := by
    rw [Mrg.MobObjects.indexRecords, foldl_index_eq, List.append_nil]
  rw [hid]
  exact lookup_rev_map g.records hn r hr

/-- Witness for C4 (amended): the eid-keyed record of the counterexample *is*
found under its FormID. -/
theorem c4_witness :
    Mrg.lookupKey (c4group.indexRecords).id_records (Mrg.Key.fid eidRec.fid) =
      some eidRec :=
  c4_index_lookup c4group (by decide) eidRec (by decide)

/-- A source cell block whose cell's FormID is not present in the
destination. -/
def c3srcCell : Mrg.MRec :=
  { fid := ("PluginA.esp", 1), eid := "SomeCell", isKeyedByEid := false,
    ignored := false, refMasters := [] }

def c3src : Mrg.MobCells :=
  { cellBlocks := [{ Mrg.emptyCellBlock with cell := some c3srcCell }],
    id_cellBlock := [(("PluginA.esp", 1), 0)] }

def c3dest : Mrg.MobCells := { cellBlocks := [], id_cellBlock := [] }

/-- C3: the spec says `merge_records(iiSkipMerge=True)` performs filtering but
records nothing and copies nothing.  On `MobCells`, merging a source whose
cell is new to the destination first adds a new cell block (`setCell`) and
then — per the comment at lines 992-993 — must "remove the child cell again";
but `remove_cell` (lines 886-892) calls `self.cellBlocks.remove(cell)` with
the cell *record* on a list of `MobCell` wrappers, which can never contain
it, so the call raises `ValueError` and leaves the copied cell block in the
destination. -/
theorem c3_iim_new_cell_crashes :
    Mrg.MobCells.merge_records ["PluginA.esp"] true false c3dest c3src [] =
      .error "ValueError: list.remove(x): x not in list" := by
  rfl

/-- C1 counterexample: after mutation (`changed = True`), an object group with
no records reports `getSize() = rec_header_size` (the group header) while its
`dump` writes zero bytes (lines 240-242), so the number of bytes written does
not equal `getSize` for every mutated container. -/
theorem c1_counterexample :
    Ser.MobObjects.getSize ⟨0, 0, 0, true, [], []⟩ = hsize ∧
      (Ser.MobObjects.dump ⟨0, 0, 0, true, [], []⟩).length = 0 ∧ hsize ≠ 0 := by
  refine ⟨rfl, rfl, by decide⟩

/-- C1 (amended): the byte/size agreement holds for mutated containers that
still have content, in the form each class actually supports: a changed
nonempty object or dialogue group dumps exactly `getSize()` bytes; a cell
block always dumps exactly `getSize()` bytes; a changed nonempty
interior-cell top block dumps exactly the total it stamps into its header; a
changed world block dumps exactly the byte total its `dump` returns; a
changed nonempty world group whose blocks are changed dumps the header plus
those block totals (the value it patches into its size field).  Empty mutated
groups dump zero bytes while `getSize` still counts the group header
(counterexample), and `MobWorlds.getSize` cannot deliver the invariant at
all: it delegates to `MobBase.getSize`, which raises `AbstractError` as soon
as any world block is changed. -/
theorem c1_size_dump_agreement :
    (∀ g : Ser.MobObjects, g.changed = true → g.records ≠ [] →
      g.dump.length = g.getSize) ∧
    (∀ g : Ser.MobDials, g.changed = true → g.records ≠ [] →
      g.dump.length = g.getSize) ∧
    (∀ c : Ser.MobCell, c.dump.length = c.getSize) ∧
    (∀ g : Ser.MobICells, g.changed = true → g.cellBlocks ≠ [] →
      g.dump.length = g.totalSize) ∧
    (∀ w : Ser.MobWorld, w.changed = true → (w.dump).1.length = (w.dump).2) ∧
    (∀ ws : Ser.MobWorlds, ws.changed = true → ws.worldBlocks ≠ [] →
      (∀ b ∈ ws.worldBlocks, b.changed = true) →
      ws.dump.length = hsize + sumBy (fun w => (Ser.MobWorld.dump w).2) ws.worldBlocks) ∧
    (∀ ws : Ser.MobWorlds, (∃ b ∈ ws.worldBlocks, b.changed = true) →
      ws.getSizeE = .error "AbstractError") :=
  ⟨Ser.MobObjects.length_mobobjects_dump_changed,
   Ser.MobDials.length_mobdials_dump_changed,
   Ser.MobCell.length_mobcell_dump,
   Ser.MobICells.length_mobicells_dump_changed,
   Ser.MobWorld.length_mobworld_dump_changed,
   Ser.MobWorlds.length_mobworlds_dump_changed,
   Ser.MobWorlds.getSizeE_error⟩

/-- Concrete instances for the C1 witness: a one-record object group, an
interior cell block, an interior-cell top block holding it, and a world group
with one changed world block. -/
def c1obj : Ser.MobObjects := ⟨0, 0, 0, true, [], [⟨0, 0, 1, 0, [5]⟩]⟩

def c1cell : Ser.MobCell :=
  { stamp := 0, cell := ⟨⟨0, 0, 0x2001, 0, [9]⟩, true, none, none⟩,
    persistent := [⟨0, 0, 0x2002, 0, []⟩], temp := [], distant := [],
    land := none, pgrd := none }

def c1icells : Ser.MobICells := ⟨0, 0, 0, 0, true, [], [c1cell]⟩

def c1world : Ser.MobWorld :=
  ⟨0, 0, 1, 0, true, [], ⟨0, 0, 0x3001, 0, [7]⟩, none, none, []⟩

def c1worlds : Ser.MobWorlds := ⟨0, 0, 0, 0, true, [], [c1world]⟩

/-- Witness for C1 (amended) at the concrete containers above. -/
theorem c1_witness :
    c1obj.dump.length = c1obj.getSize ∧
    c1cell.dump.length = c1cell.getSize ∧
    c1icells.dump.length = c1icells.totalSize ∧
    (c1world.dump).1.length = (c1world.dump).2 ∧
    c1worlds.dump.length =
      hsize + sumBy (fun w => (Ser.MobWorld.dump w).2) c1worlds.worldBlocks ∧
    c1worlds.getSizeE = .error "AbstractError" :=
  ⟨c1_size_dump_agreement.1 c1obj rfl (by decide),
   c1_size_dump_agreement.2.2.1 c1cell,
   c1_size_dump_agreement.2.2.2.1 c1icells rfl (by decide),
   c1_size_dump_agreement.2.2.2.2.1 c1world rfl,
   c1_size_dump_agreement.2.2.2.2.2.1 c1worlds rfl (by decide)
     (by intro b hb; simp [c1worlds] at hb; rw [hb]; rfl),
   c1_size_dump_agreement.2.2.2.2.2.2 c1worlds ⟨c1world, by decide, rfl⟩⟩
